import Mathlib

/-!
Verification of the beading-editor vector-ingestion and grid-sampling core.

Shallow embedding conventions:
* JS `number` values that are known finite are modelled as `ℚ` (exact
  arithmetic; IEEE rounding is not modelled).  Where the source tests
  `isFinite` / `undefined`, values are modelled as `Option JSVal` with an
  explicit non-finite constructor, so the skip logic is represented.
* `Math.cos` / `Math.sin` / `Math.PI` are not computable over `ℚ`; the
  embedding threads them as parameters (`TrigEnv`).  Every theorem below
  holds for an arbitrary environment, in particular for the real
  cosine/sine/π.
* Canvas rasterization (`getImageData` pixel reads) is opaque GUI state;
  the pixel test is threaded as an abstract function, while the coordinate
  guard around it is embedded faithfully from the source.
-/

namespace BeadingEditor

/-- A point in the plane, as a pair of rationals. -/
abbrev Pt := ℚ × ℚ

/-- Abstract stand-ins for `Math.PI`, `Math.cos`, `Math.sin`. -/
structure TrigEnv where
  piQ : ℚ
  cosf : ℚ → ℚ
  sinf : ℚ → ℚ

/- ------------------------------------------------------------------
   Workspace ↔ document coordinate transform
   (src/canvas-renderer.js renderContour, src/main.js
   calculateBeadFillPercentage)
   ------------------------------------------------------------------ -/

/-- `scaleX = fileWidthMM / workspaceWidthMM` (same for Y), from both
`renderContour` and the samplers. -/
def fileScale (fileMM workspaceMM : ℚ) : ℚ := fileMM / workspaceMM

/-- `offsetX = (1.0 - scaleX) / 2.0` — centering offset. -/
def centerOffset (scale : ℚ) : ℚ := (1 - scale) / 2

/-- Document→workspace projection used by `renderContour`
(src/canvas-renderer.js lines 207-211): `workspaceX = offsetX + fileX * scaleX`. -/
def docToWorkspace (scale offset fileX : ℚ) : ℚ := offset + fileX * scale

/-- Workspace→document forward transform used by the samplers
(src/main.js line 360, src/canvas-renderer.js line 471):
`fileX = (workspaceX - offsetX) / scaleX`. -/
def workspaceToDoc (scale offset workspaceX : ℚ) : ℚ := (workspaceX - offset) / scale

/- ------------------------------------------------------------------
   Threshold classification
   (src/main.js lines 285, 431-433, 455-457, 945-947)
   ------------------------------------------------------------------ -/

/-- `this.fillThreshold === 0 ? fillPercentage > 0 : fillPercentage >= this.fillThreshold` —
the classification rule appearing verbatim at every call site. -/
def classifyFilled (threshold pct : ℚ) : Bool :=
  if threshold = 0 then decide (0 < pct) else decide (threshold ≤ pct)

/- ------------------------------------------------------------------
   Raster fill predicate guard
   (src/dxf-loader.js createDrawingFunction return closure lines 580-597,
    src/svg-loader.js loadSVG drawingFunction lines 90-105)
   ------------------------------------------------------------------ -/

/-- The closure returned by both `createDrawingFunction` (DXF) and
`loadSVG` (SVG): floor the normalized coordinates onto the raster grid,
return `false` outside `[0, resolution)`², otherwise consult the raster
pixel (opaque here: `pixel`). -/
def rasterDrawingFunction (resolution : ℕ) (pixel : ℤ → ℤ → Bool)
    (normalizedX normalizedY : ℚ) : Bool :=
  let x : ℤ := ⌊normalizedX * (resolution : ℚ)⌋
  let y : ℤ := ⌊normalizedY * (resolution : ℚ)⌋
  if x < 0 ∨ (resolution : ℤ) ≤ x ∨ y < 0 ∨ (resolution : ℤ) ≤ y then false
  else pixel x y

/-- The SVG loader hard-codes `resolution = 800` (src/svg-loader.js line 49). -/
def svgDrawingFunction (pixel : ℤ → ℤ → Bool) (nx ny : ℚ) : Bool :=
  rasterDrawingFunction 800 pixel nx ny

/- ------------------------------------------------------------------
   Arc tessellation (src/dxf-loader.js generateArcPoints, lines 306-342)
   ------------------------------------------------------------------ -/

/-- JS truncating division result: `Math.trunc`-style integer part of a
rational (round toward zero), used to express the JS `%` operator. -/
def ratTrunc (x : ℚ) : ℤ := if 0 ≤ x then ⌊x⌋ else -⌊-x⌋

/-- The JS remainder operator `a % b` on finite doubles
(`a - b * trunc(a / b)`, sign follows the dividend). -/
def jsRem (a b : ℚ) : ℚ := a - b * (ratTrunc (a / b) : ℚ)

/-- `rad = rad % (2*PI); if (rad < 0) rad += 2*PI` — the normalization
applied to both arc angles (radians) in `generateArcPoints`. -/
def normalizeAngle (twoPi rad : ℚ) : ℚ :=
  let r := jsRem rad twoPi
  if r < 0 then r + twoPi else r

/-- An ARC entity with all fields known finite (angles in degrees). -/
structure ArcEnt where
  cx : ℚ
  cy : ℚ
  radius : ℚ
  startAngle : ℚ
  endAngle : ℚ
deriving DecidableEq

/-- Counter-clockwise sweep before the degenerate-arc fix:
`arcLength = endRad - startRad; if (arcLength < 0) arcLength += 2*PI`. -/
def arcSweepRaw (tr : TrigEnv) (arc : ArcEnt) : ℚ :=
  let twoPi := 2 * tr.piQ
  let startRad := normalizeAngle twoPi (arc.startAngle * tr.piQ / 180)
  let endRad := normalizeAngle twoPi (arc.endAngle * tr.piQ / 180)
  let arcLength := endRad - startRad
  if arcLength < 0 then arcLength + twoPi else arcLength

/-- The sweep actually used: `if (arcLength < 0.001) arcLength = 2*PI` —
a numerically ~0 sweep is promoted to a full circle. -/
def arcSweep (tr : TrigEnv) (arc : ArcEnt) : ℚ :=
  if arcSweepRaw tr arc < 1/1000 then 2 * tr.piQ else arcSweepRaw tr arc

/-- `actualSteps = Math.max(2, Math.max(steps, Math.floor(arcLength * 30 / (2*PI))))`. -/
def arcActualSteps (tr : TrigEnv) (arc : ArcEnt) (steps : ℕ) : ℕ :=
  (max 2 (max (steps : ℤ) ⌊arcSweep tr arc * 30 / (2 * tr.piQ)⌋)).toNat

/-- `generateArcPoints` (src/dxf-loader.js lines 306-342): normalize both
angles, compute the counter-clockwise sweep (promoting ~0 to a full
circle), then emit `actualSteps + 1` points along the arc.  The source's
per-point `isFinite` guard is vacuous over exact rationals, so every
generated point is kept. -/
def generateArcPoints (tr : TrigEnv) (arc : ArcEnt) (steps : ℕ) : List Pt :=
  let twoPi := 2 * tr.piQ
  let startRad := normalizeAngle twoPi (arc.startAngle * tr.piQ / 180)
  let arcLength := arcSweep tr arc
  let actualSteps := arcActualSteps tr arc steps
  (List.range (actualSteps + 1)).map (fun (i : ℕ) =>
    let t : ℚ := (i : ℚ) / (actualSteps : ℚ)
    let angle := startRad + t * arcLength
    (arc.cx + arc.radius * tr.cosf angle, arc.cy + arc.radius * tr.sinf angle))

/- ------------------------------------------------------------------
   Segment stitching (src/dxf-loader.js orderSegments, lines 349-417)
   ------------------------------------------------------------------ -/

/-- A segment as produced by `extractSegments`: endpoint coordinates plus
the ordered tessellated point list (and its entity-type tag, copied along
by the object spread when reversing). -/
structure Segment where
  typ : String
  startX : ℚ
  startY : ℚ
  endX : ℚ
  endY : ℚ
  points : List Pt
deriving DecidableEq

/-- `{...seg, startX: seg.endX, ..., points: [...seg.points].reverse()}` —
the reversed copy built when a segment is matched on its end point. -/
def revSeg (s : Segment) : Segment :=
  { s with startX := s.endX, startY := s.endY,
           endX := s.startX, endY := s.startY,
           points := s.points.reverse }

/-- `tolerance = 0.5` (document units) in `orderSegments`. -/
def stitchTolerance : ℚ := 1/2

/-- The per-segment test of the inner `for` loop: first try the segment's
start against the current path end (`Math.abs(...) < tolerance` on each
axis), then its end (in which case the reversed copy is taken). -/
def matchTry (cx cy : ℚ) (s : Segment) : Option Segment :=
  if |s.startX - cx| < stitchTolerance ∧ |s.startY - cy| < stitchTolerance then
    some s
  else if |s.endX - cx| < stitchTolerance ∧ |s.endY - cy| < stitchTolerance then
    some (revSeg s)
  else none

/-- The inner `for (i = 0; i < segments.length; i++) { if (used.has(i)) continue; ... }`
search: scanning the not-yet-used segments in their original order is the
same as scanning indices in ascending order while skipping used ones.
Returns the matched (possibly reversed) segment together with the pool
with that segment removed. -/
def findFirstMatch (cx cy : ℚ) : List Segment → Option (Segment × List Segment)
  | [] => none
  | s :: rest =>
    match matchTry cx cy s with
    | some s' => some (s', rest)
    | none => (findFirstMatch cx cy rest).map (fun p => (p.1, s :: p.2))

/-- The `while (ordered.length < segments.length)` loop.  The fuel equals
the size of the remaining pool: each successful match consumes one pool
element, and on `!foundNext` the whole remaining pool is appended in its
original order and the loop breaks. -/
def orderLoop : ℕ → ℚ → ℚ → List Segment → List Segment
  | 0, _, _, remaining => remaining
  | fuel + 1, cx, cy, remaining =>
    match findFirstMatch cx cy remaining with
    | none => remaining
    | some (s', rest) => s' :: orderLoop fuel s'.endX s'.endY rest

/-- `orderSegments` (src/dxf-loader.js lines 349-417).  The source's
one-segment early return coincides with the general path (the loop body
never runs on an empty pool). -/
def orderSegments (segments : List Segment) : List Segment :=
  match segments with
  | [] => []
  | s :: rest => s :: orderLoop rest.length s.endX s.endY rest

/-- "Appears in the output either as-is or endpoint-swapped with its point
list reversed" — the per-segment relation used to state that stitching
permutes its input. -/
def SegEquiv (a b : Segment) : Prop := b = a ∨ b = revSeg a

/- ------------------------------------------------------------------
   Grid sampling (src/main.js isBeadFilled lines 241-286,
   calculateBeadFillPercentage lines 337-379, countFilledBeads lines
   894-955; src/canvas-renderer.js calculateBeadFillPercentage lines
   451-491)
   ------------------------------------------------------------------ -/

/-- `this.gridType` — `'peyote'`, `'brick'`, or anything else (square). -/
inductive GridType where
  | peyote
  | brick
  | square
deriving DecidableEq

/-- The fields of `BeadingStudio` (and of `CanvasRenderer`, which mirrors
them) read by the sampling functions.  `originalDrawing` is `none` when no
file is loaded (JS `null`). -/
structure StudioState where
  workspaceWidthMM : ℚ
  workspaceHeightMM : ℚ
  pixelWidthMM : ℚ
  pixelHeightMM : ℚ
  canvasWidth : ℚ
  canvasHeight : ℚ
  gridOffsetX : ℚ
  gridOffsetY : ℚ
  gridType : GridType
  fillThreshold : ℚ
  hasLoadedFile : Bool
  fileWidthMM : ℚ
  fileHeightMM : ℚ
  originalDrawing : Option (ℚ → ℚ → Bool)

/-- Modelled from the spec: the per-cell sub-sample grid size `S = 5`
(§4.7 "sample a fixed `S×S` grid of interior points (`S = 5`)").  The
constant `SAMPLE_GRID_SIZE` itself lives in a constants file that is not
under `src/`; `src/canvas-renderer.js` line 452 hard-codes the same `5`. -/
def SAMPLE_GRID_SIZE : ℕ := 5

/-- JS truthiness of `this.hasLoadedFile && this.fileWidthMM && this.fileHeightMM`
(a zero dimension is falsy). -/
def fileActive (st : StudioState) : Bool :=
  st.hasLoadedFile && decide (st.fileWidthMM ≠ 0) && decide (st.fileHeightMM ≠ 0)

/-- `scaleX/scaleY/offsetX/offsetY` as computed (identically) at the top of
`isBeadFilled`, `countFilledBeads` and the render path. -/
def fileTransformParams (st : StudioState) : ℚ × ℚ × ℚ × ℚ :=
  if fileActive st then
    let sx := st.fileWidthMM / st.workspaceWidthMM
    let sy := st.fileHeightMM / st.workspaceHeightMM
    (sx, sy, (1 - sx) / 2, (1 - sy) / 2)
  else (1, 1, 0, 0)

/-- The arguments handed to `calculateBeadFillPercentage` by its callers. -/
structure SampleArgs where
  x : ℚ
  y : ℚ
  pixelWidthPx : ℚ
  pixelHeightPx : ℚ
  canvasWidth : ℚ
  canvasHeight : ℚ
  scaleX : ℚ
  scaleY : ℚ
  offsetX : ℚ
  offsetY : ℚ

/-- One sub-sample's document-space coordinates: interior offset
`0.05 + (k/(S-1))*0.9`, workspace-normalized position, then the
workspace→document transform when a file is loaded (the branch reads the
state flags, exactly as the source does inside the loop). -/
def sampleFileXY (st : StudioState) (a : SampleArgs) (sxi syi : ℕ) : Pt :=
  let ox := 1/20 + ((sxi : ℚ) / ((SAMPLE_GRID_SIZE : ℚ) - 1)) * (9/10)
  let oy := 1/20 + ((syi : ℚ) / ((SAMPLE_GRID_SIZE : ℚ) - 1)) * (9/10)
  let wx := (a.x + a.pixelWidthPx * ox) / a.canvasWidth
  let wy := (a.y + a.pixelHeightPx * oy) / a.canvasHeight
  if fileActive st then ((wx - a.offsetX) / a.scaleX, (wy - a.offsetY) / a.scaleY)
  else (wx, wy)

/-- The nested `for (sy) for (sx)` iteration space, flattened in source
order (`sy` outer, `sx` inner); pairs are `(syi, sxi)`. -/
def samplePairs : List (ℕ × ℕ) :=
  (List.range SAMPLE_GRID_SIZE).flatMap
    (fun syi => (List.range SAMPLE_GRID_SIZE).map (fun sxi => (syi, sxi)))

/-- `(filledPoints, totalPoints)` accumulated by `calculateBeadFillPercentage`
in src/main.js lines 337-379.  Every sample increments `totalPoints`: the
source comments "НЕ пропускаем точки вне файла" — out-of-document samples
are NOT skipped, the drawing function is trusted to return false there. -/
def mainSampleCounts (st : StudioState) (f : ℚ → ℚ → Bool) (a : SampleArgs) : ℕ × ℕ :=
  samplePairs.foldl
    (fun acc q =>
      let p := sampleFileXY st a q.2 q.1
      ((if f p.1 p.2 then acc.1 + 1 else acc.1), acc.2 + 1))
    (0, 0)

/-- `calculateBeadFillPercentage` (src/main.js): `totalPoints > 0 ?
filledPoints / totalPoints : 0`. -/
def calculateBeadFillPercentage (st : StudioState) (f : ℚ → ℚ → Bool) (a : SampleArgs) : ℚ :=
  let c := mainSampleCounts st f a
  if 0 < c.2 then (c.1 : ℚ) / (c.2 : ℚ) else 0

/-- The renderer's skip test (src/canvas-renderer.js lines 474-478):
`if (fileX < 0 || fileX > 1 || fileY < 0 || fileY > 1) continue;` —
applied only when a file is loaded. -/
def sampleOutsideDoc (st : StudioState) (a : SampleArgs) (sxi syi : ℕ) : Bool :=
  let p := sampleFileXY st a sxi syi
  decide (p.1 < 0 ∨ 1 < p.1 ∨ p.2 < 0 ∨ 1 < p.2)

/-- `(filledPoints, totalPoints)` accumulated by the renderer's
`calculateBeadFillPercentage` (src/canvas-renderer.js lines 451-491):
out-of-document samples are skipped, contributing to neither count. -/
def rendererSampleCounts (st : StudioState) (f : ℚ → ℚ → Bool) (a : SampleArgs) : ℕ × ℕ :=
  samplePairs.foldl
    (fun acc q =>
      if fileActive st && sampleOutsideDoc st a q.2 q.1 then acc
      else
        let p := sampleFileXY st a q.2 q.1
        ((if f p.1 p.2 then acc.1 + 1 else acc.1), acc.2 + 1))
    (0, 0)

/-- The renderer's `calculateBeadFillPercentage` result. -/
def rendererBeadFillPercentage (st : StudioState) (f : ℚ → ℚ → Bool) (a : SampleArgs) : ℚ :=
  let c := rendererSampleCounts st f a
  if 0 < c.2 then (c.1 : ℚ) / (c.2 : ℚ) else 0

/-- `Math.max(1, Math.floor(this.workspaceWidthMM / this.pixelWidthMM))`. -/
def gridWidthOf (st : StudioState) : ℤ :=
  max 1 ⌊st.workspaceWidthMM / st.pixelWidthMM⌋

/-- `Math.max(1, Math.floor(this.workspaceHeightMM / this.pixelHeightMM))`. -/
def gridHeightOf (st : StudioState) : ℤ :=
  max 1 ⌊st.workspaceHeightMM / st.pixelHeightMM⌋

/-- Cell placement in `isBeadFilled` (src/main.js lines 270-279): peyote
shifts odd columns down half a cell; every other grid type takes the
odd-row half-cell x shift of the `else` branch. -/
def beadXY (st : StudioState) (row col : ℕ) : Pt :=
  let pw := st.canvasWidth / (gridWidthOf st : ℚ)
  let ph := st.canvasHeight / (gridHeightOf st : ℚ)
  let gox := st.gridOffsetX / st.workspaceWidthMM * st.canvasWidth
  let goy := st.gridOffsetY / st.workspaceHeightMM * st.canvasHeight
  match st.gridType with
  | .peyote =>
    ((col : ℚ) * pw + gox,
     (row : ℚ) * ph + (if col % 2 = 1 then ph / 2 else 0) + goy)
  | _ =>
    ((col : ℚ) * pw + (if row % 2 = 1 then pw / 2 else 0) + gox,
     (row : ℚ) * ph + goy)

/-- The fill percentage `isBeadFilled` computes for cell `(row, col)`. -/
def beadPct (st : StudioState) (f : ℚ → ℚ → Bool) (row col : ℕ) : ℚ :=
  let pw := st.canvasWidth / (gridWidthOf st : ℚ)
  let ph := st.canvasHeight / (gridHeightOf st : ℚ)
  let tp := fileTransformParams st
  let xy := beadXY st row col
  calculateBeadFillPercentage st f
    ⟨xy.1, xy.2, pw, ph, st.canvasWidth, st.canvasHeight,
     tp.1, tp.2.1, tp.2.2.1, tp.2.2.2⟩

/-- `isBeadFilled` (src/main.js lines 241-286): `false` when no drawing is
loaded, otherwise the common threshold rule applied to the cell's fill
percentage. -/
def isBeadFilled (st : StudioState) (row col : ℕ) : Bool :=
  match st.originalDrawing with
  | none => false
  | some f => classifyFilled st.fillThreshold (beadPct st f row col)

/-- Cell placement in `countFilledBeads` (src/main.js lines 922-936):
three-way on grid type (peyote: odd columns down; brick: odd rows right;
square: no stagger), with `gridWidth`/`gridHeight` taken as arguments. -/
def countCellXY (st : StudioState) (gw gh row col : ℕ) : Pt :=
  let pw := st.canvasWidth / (gw : ℚ)
  let ph := st.canvasHeight / (gh : ℚ)
  let gox := st.gridOffsetX / st.workspaceWidthMM * st.canvasWidth
  let goy := st.gridOffsetY / st.workspaceHeightMM * st.canvasHeight
  let opx := match st.gridType with
    | .brick => if row % 2 = 1 then pw / 2 else 0
    | _ => 0
  let opy := match st.gridType with
    | .peyote => if col % 2 = 1 then ph / 2 else 0
    | _ => 0
  ((col : ℚ) * pw + opx + gox, (row : ℚ) * ph + opy + goy)

/-- The fill percentage `countFilledBeads` computes for cell `(row, col)`. -/
def countCellPct (st : StudioState) (f : ℚ → ℚ → Bool) (gw gh row col : ℕ) : ℚ :=
  let pw := st.canvasWidth / (gw : ℚ)
  let ph := st.canvasHeight / (gh : ℚ)
  let tp := fileTransformParams st
  let xy := countCellXY st gw gh row col
  calculateBeadFillPercentage st f
    ⟨xy.1, xy.2, pw, ph, st.canvasWidth, st.canvasHeight,
     tp.1, tp.2.1, tp.2.2.1, tp.2.2.2⟩

/-- The nested `for (row) for (col)` iteration space of `countFilledBeads`,
flattened in source order. -/
def cellPairs (gh gw : ℕ) : List (ℕ × ℕ) :=
  (List.range gh).flatMap (fun row => (List.range gw).map (fun col => (row, col)))

/-- `countFilledBeads` (src/main.js lines 894-955): 0 with no drawing,
otherwise count the cells passing the threshold rule. -/
def countFilledBeads (st : StudioState) (gw gh : ℕ) : ℕ :=
  match st.originalDrawing with
  | none => 0
  | some f =>
    (cellPairs gh gw).foldl
      (fun acc rc =>
        if classifyFilled st.fillThreshold (countCellPct st f gw gh rc.1 rc.2)
        then acc + 1 else acc)
      0

/- ------------------------------------------------------------------
   SVG path contour extraction
   (src/svg-loader.js extractContourFromPath, lines 105-345)
   ------------------------------------------------------------------ -/

/-- Tokenized SVG path commands.  The string/regex tokenization of the `d`
attribute is out of scope; commands arrive with their numeric arguments
grouped into the tuples the source consumes per inner-loop iteration
(`M` reads one pair, `L` pairs, `H`/`V` singletons, `C` six-tuples, `S`/`Q`
four-tuples, `T` pairs, `A` seven-tuples of which only the last two are
used).  `abs` is the uppercase/lowercase (absolute/relative) distinction. -/
inductive PathCmd where
  | move (abs : Bool) (x y : ℚ)
  | lineTo (abs : Bool) (pts : List Pt)
  | horiz (abs : Bool) (xs : List ℚ)
  | vert (abs : Bool) (ys : List ℚ)
  | cubic (abs : Bool) (args : List (ℚ × ℚ × ℚ × ℚ × ℚ × ℚ))
  | smoothCubic (abs : Bool) (args : List (ℚ × ℚ × ℚ × ℚ))
  | quad (abs : Bool) (args : List (ℚ × ℚ × ℚ × ℚ))
  | smoothQuad (abs : Bool) (args : List Pt)
  | arcTo (abs : Bool) (args : List (ℚ × ℚ × ℚ × ℚ × ℚ × ℚ × ℚ))
  | close

/-- What `lastCommand` remembers: the command family (the source compares
against both letter cases of a family, so case needs no modelling). -/
inductive CmdKind where
  | initial
  | move
  | line
  | horiz
  | vert
  | cubic
  | smoothCubic
  | quad
  | smoothQuad
  | arcTo
  | close
deriving DecidableEq

/-- `svgWidth/svgHeight/minX/minY` captured by `addPoint`. -/
structure PathEnv where
  minX : ℚ
  minY : ℚ
  svgWidth : ℚ
  svgHeight : ℚ

/-- `addPoint`: push `((x - minX)/svgWidth, (y - minY)/svgHeight)`. -/
def normPt (env : PathEnv) (x y : ℚ) : Pt :=
  ((x - env.minX) / env.svgWidth, (y - env.minY) / env.svgHeight)

/-- The evaluator's mutable locals. -/
structure PathState where
  curX : ℚ
  curY : ℚ
  startX : ℚ
  startY : ℚ
  lastCX : ℚ
  lastCY : ℚ
  lastCmd : CmdKind
  points : List Pt

/-- `BEZIER_STEPS = 20` (src/svg-loader.js line 116). -/
def BEZIER_STEPS : ℕ := 20

/-- The inner-loop parameters `t/BEZIER_STEPS` for `t = 1 .. BEZIER_STEPS`. -/
def bezierTs : List ℚ :=
  (List.range BEZIER_STEPS).map (fun (t : ℕ) => ((t : ℚ) + 1) / (BEZIER_STEPS : ℚ))

/-- `cubicBezier` (src/svg-loader.js lines 137-140). -/
def cubicBezier (p0 p1 p2 p3 t : ℚ) : ℚ :=
  let mt := 1 - t
  mt * mt * mt * p0 + 3 * mt * mt * t * p1 + 3 * mt * t * t * p2 + t * t * t * p3

/-- `quadraticBezier` (src/svg-loader.js lines 143-146). -/
def quadraticBezier (p0 p1 p2 t : ℚ) : ℚ :=
  let mt := 1 - t
  mt * mt * p0 + 2 * mt * t * p1 + t * t * p2

/-- One `L`/`l` coordinate pair: update the current point, then `addPoint`. -/
def lineToStep (env : PathEnv) (abs : Bool) (st : PathState) (p : Pt) : PathState :=
  let nx := if abs then p.1 else st.curX + p.1
  let ny := if abs then p.2 else st.curY + p.2
  { st with curX := nx, curY := ny, points := st.points ++ [normPt env nx ny] }

/-- One `H`/`h` coordinate. -/
def horizStep (env : PathEnv) (abs : Bool) (st : PathState) (c : ℚ) : PathState :=
  let nx := if abs then c else st.curX + c
  { st with curX := nx, points := st.points ++ [normPt env nx st.curY] }

/-- One `V`/`v` coordinate. -/
def vertStep (env : PathEnv) (abs : Bool) (st : PathState) (c : ℚ) : PathState :=
  let ny := if abs then c else st.curY + c
  { st with curY := ny, points := st.points ++ [normPt env st.curX ny] }

/-- One `C`/`c` six-tuple: tessellate at `t = 1..20`, then advance the
current point to the curve's endpoint and remember the second control
point. -/
def cubicStep (env : PathEnv) (abs : Bool) (st : PathState)
    (a : ℚ × ℚ × ℚ × ℚ × ℚ × ℚ) : PathState :=
  let x1 := if abs then a.1 else st.curX + a.1
  let y1 := if abs then a.2.1 else st.curY + a.2.1
  let x2 := if abs then a.2.2.1 else st.curX + a.2.2.1
  let y2 := if abs then a.2.2.2.1 else st.curY + a.2.2.2.1
  let x3 := if abs then a.2.2.2.2.1 else st.curX + a.2.2.2.2.1
  let y3 := if abs then a.2.2.2.2.2 else st.curY + a.2.2.2.2.2
  let pts := bezierTs.map (fun tt =>
    normPt env (cubicBezier st.curX x1 x2 x3 tt) (cubicBezier st.curY y1 y2 y3 tt))
  { st with curX := x3, curY := y3, lastCX := x2, lastCY := y2,
            points := st.points ++ pts }

/-- One `S`/`s` four-tuple: the first control point is the reflection
`2*current - lastControl` only when the previous command was a cubic
family command, otherwise the current point.  (`lastCommand` is updated
once per command, so the same test applies to every tuple of one `S`.) -/
def smoothCubicStep (env : PathEnv) (abs : Bool) (st : PathState)
    (a : ℚ × ℚ × ℚ × ℚ) : PathState :=
  let x1 := if st.lastCmd = .cubic ∨ st.lastCmd = .smoothCubic
            then 2 * st.curX - st.lastCX else st.curX
  let y1 := if st.lastCmd = .cubic ∨ st.lastCmd = .smoothCubic
            then 2 * st.curY - st.lastCY else st.curY
  let x2 := if abs then a.1 else st.curX + a.1
  let y2 := if abs then a.2.1 else st.curY + a.2.1
  let x3 := if abs then a.2.2.1 else st.curX + a.2.2.1
  let y3 := if abs then a.2.2.2 else st.curY + a.2.2.2
  let pts := bezierTs.map (fun tt =>
    normPt env (cubicBezier st.curX x1 x2 x3 tt) (cubicBezier st.curY y1 y2 y3 tt))
  { st with curX := x3, curY := y3, lastCX := x2, lastCY := y2,
            points := st.points ++ pts }

/-- One `Q`/`q` four-tuple. -/
def quadStep (env : PathEnv) (abs : Bool) (st : PathState)
    (a : ℚ × ℚ × ℚ × ℚ) : PathState :=
  let x1 := if abs then a.1 else st.curX + a.1
  let y1 := if abs then a.2.1 else st.curY + a.2.1
  let x2 := if abs then a.2.2.1 else st.curX + a.2.2.1
  let y2 := if abs then a.2.2.2 else st.curY + a.2.2.2
  let pts := bezierTs.map (fun tt =>
    normPt env (quadraticBezier st.curX x1 x2 tt) (quadraticBezier st.curY y1 y2 tt))
  { st with curX := x2, curY := y2, lastCX := x1, lastCY := y1,
            points := st.points ++ pts }

/-- One `T`/`t` pair (quadratic reflection rule). -/
def smoothQuadStep (env : PathEnv) (abs : Bool) (st : PathState) (a : Pt) : PathState :=
  let x1 := if st.lastCmd = .quad ∨ st.lastCmd = .smoothQuad
            then 2 * st.curX - st.lastCX else st.curX
  let y1 := if st.lastCmd = .quad ∨ st.lastCmd = .smoothQuad
            then 2 * st.curY - st.lastCY else st.curY
  let x2 := if abs then a.1 else st.curX + a.1
  let y2 := if abs then a.2 else st.curY + a.2
  let pts := bezierTs.map (fun tt =>
    normPt env (quadraticBezier st.curX x1 x2 tt) (quadraticBezier st.curY y1 y2 tt))
  { st with curX := x2, curY := y2, lastCX := x1, lastCY := y1,
            points := st.points ++ pts }

/-- One `A`/`a` seven-tuple: deliberately approximated by straight-line
interpolation from the current point to the endpoint (only the last two
arguments are consumed). -/
def arcToStep (env : PathEnv) (abs : Bool) (st : PathState)
    (a : ℚ × ℚ × ℚ × ℚ × ℚ × ℚ × ℚ) : PathState :=
  let ex := if abs then a.2.2.2.2.2.1 else st.curX + a.2.2.2.2.2.1
  let ey := if abs then a.2.2.2.2.2.2 else st.curY + a.2.2.2.2.2.2
  let pts := bezierTs.map (fun tt =>
    normPt env (st.curX + (ex - st.curX) * tt) (st.curY + (ey - st.curY) * tt))
  { st with curX := ex, curY := ey, points := st.points ++ pts }

/-- Process one command (the source's `commands.forEach` body), including
the trailing `lastCommand = type`. -/
def applyCmd (env : PathEnv) (st : PathState) : PathCmd → PathState
  | .move abs x y =>
    let nx := if abs then x else st.curX + x
    let ny := if abs then y else st.curY + y
    { st with curX := nx, curY := ny, startX := nx, startY := ny,
              points := st.points ++ [normPt env nx ny], lastCmd := .move }
  | .lineTo abs pts =>
    { pts.foldl (lineToStep env abs) st with lastCmd := .line }
  | .horiz abs xs =>
    { xs.foldl (horizStep env abs) st with lastCmd := .horiz }
  | .vert abs ys =>
    { ys.foldl (vertStep env abs) st with lastCmd := .vert }
  | .cubic abs args =>
    { args.foldl (cubicStep env abs) st with lastCmd := .cubic }
  | .smoothCubic abs args =>
    { args.foldl (smoothCubicStep env abs) st with lastCmd := .smoothCubic }
  | .quad abs args =>
    { args.foldl (quadStep env abs) st with lastCmd := .quad }
  | .smoothQuad abs args =>
    { args.foldl (smoothQuadStep env abs) st with lastCmd := .smoothQuad }
  | .arcTo abs args =>
    { args.foldl (arcToStep env abs) st with lastCmd := .arcTo }
  | .close =>
    let st' := if st.curX ≠ st.startX ∨ st.curY ≠ st.startY
               then { st with points := st.points ++ [normPt env st.startX st.startY] }
               else st
    { st' with curX := st.startX, curY := st.startY, lastCmd := .close }

/-- Initial locals: current/start/control points at the origin, empty
point list. -/
def initPathState : PathState :=
  ⟨0, 0, 0, 0, 0, 0, .initial, []⟩

/-- The point list accumulated over a whole `d`-attribute command list. -/
def runPath (env : PathEnv) (cmds : List PathCmd) : List Pt :=
  (cmds.foldl (applyCmd env) initPathState).points

/-- `return points.length > 0 ? points : null` (src/svg-loader.js line 344)
for the `path` branch of `extractContourFromPath`. -/
def extractContourFromPathCmds (env : PathEnv) (cmds : List PathCmd) : Option (List Pt) :=
  let pts := runPath env cmds
  if pts.isEmpty then none else some pts

/- ------------------------------------------------------------------
   DXF bounding box and load
   (src/dxf-loader.js calculateBoundingBox lines 61-159,
    calculateArcBoundingBox lines 165-188, loadDXF lines 18-54)
   ------------------------------------------------------------------ -/

/-- A JS number as stored on a parsed entity: finite, infinite, or NaN. -/
inductive JSVal where
  | num (q : ℚ)
  | inf
  | ninf
  | nan
deriving DecidableEq

/-- The test `v !== undefined && isFinite(v)`: an entity field passes
exactly when it is present and a finite number. -/
def finQ : Option JSVal → Option ℚ
  | some (.num q) => some q
  | _ => none

/-- `{minX, minY, maxX, maxY}` in document units. -/
structure BBox where
  minX : ℚ
  minY : ℚ
  maxX : ℚ
  maxY : ℚ
deriving DecidableEq

/-- Parsed DXF entities, with every coordinate field optional and possibly
non-finite (the parser stores whatever `parseFloat` produced).  `closed`
flags are consumed only by the rasterizer, which is not modelled here. -/
inductive Entity where
  | lineE (x1 y1 x2 y2 : Option JSVal)
  | circleE (cx cy radius : Option JSVal)
  | arcE (cx cy radius startAngle endAngle : Option JSVal)
  | polyE (closed : Bool) (vertices : List (Option JSVal × Option JSVal))
  | ellipseE (centerX centerY majorAxisLength minorAxisLength rotDeg : Option JSVal)
  | splineE (closed : Bool) (controlPoints : List (Option JSVal × Option JSVal))

/-- LINE validity: all four endpoint coordinates present and finite. -/
def lineValid (x1 y1 x2 y2 : Option JSVal) : Option (ℚ × ℚ × ℚ × ℚ) :=
  match finQ x1, finQ y1, finQ x2, finQ y2 with
  | some a, some b, some c, some d => some (a, b, c, d)
  | _, _, _, _ => none

/-- CIRCLE validity: center and radius present and finite (the radius'
sign is NOT checked). -/
def circleValid (cx cy radius : Option JSVal) : Option (ℚ × ℚ × ℚ) :=
  match finQ cx, finQ cy, finQ radius with
  | some a, some b, some r => some (a, b, r)
  | _, _, _ => none

/-- ARC validity: all five fields present and finite, and `radius > 0`. -/
def arcValid (cx cy radius startAngle endAngle : Option JSVal) : Option ArcEnt :=
  match finQ cx, finQ cy, finQ radius, finQ startAngle, finQ endAngle with
  | some a, some b, some r, some sa, some ea =>
    if 0 < r then some ⟨a, b, r, sa, ea⟩ else none
  | _, _, _, _, _ => none

/-- ELLIPSE validity: center and major axis length present and finite (the
minor axis and rotation are not consulted by the bounding box). -/
def ellipseValid (centerX centerY majorAxisLength : Option JSVal) : Option (ℚ × ℚ × ℚ) :=
  match finQ centerX, finQ centerY, finQ majorAxisLength with
  | some a, some b, some m => some (a, b, m)
  | _, _, _ => none

/-- Per-vertex validity for POLYLINE/LWPOLYLINE/SPLINE point lists. -/
def vertexValid (v : Option JSVal × Option JSVal) : Option Pt :=
  match finQ v.1, finQ v.2 with
  | some a, some b => some (a, b)
  | _, _ => none

/-- The accumulator of `calculateBoundingBox`: the running min/max box
(`none` while still at the `±Infinity` initial values) and the
`hasValidEntity` flag. -/
structure BState where
  acc : Option BBox
  hasValid : Bool
deriving DecidableEq

/-- Fold one contributing point into the running bounds and raise
`hasValidEntity` (`Math.min/Math.max` against `±Infinity` on first use):
the point enters both the min and the max side, as for LINE endpoints and
POLYLINE/SPLINE vertices. -/
def push1 (s : BState) (p : Pt) : BState :=
  ⟨some (match s.acc with
    | none => ⟨p.1, p.2, p.1, p.2⟩
    | some b => ⟨min b.minX p.1, min b.minY p.2, max b.maxX p.1, max b.maxY p.2⟩),
   true⟩

/-- Fold a low/high corner pair into the running bounds one-sidedly, as
the CIRCLE/ARC/ELLIPSE branches do: `minX = Math.min(minX, lo.x)` but
`maxX = Math.max(maxX, hi.x)` — the low corner never reaches the max
side, so an inverted pair (e.g. from a negative radius) produces an
inverted box rather than being reordered. -/
def pushCorners (s : BState) (lo hi : Pt) : BState :=
  ⟨some (match s.acc with
    | none => ⟨lo.1, lo.2, hi.1, hi.2⟩
    | some b => ⟨min b.minX lo.1, min b.minY lo.2, max b.maxX hi.1, max b.maxY hi.2⟩),
   true⟩

/-- Bounds of a bare point list (used for the arc point cloud). -/
def ptsBBox (pts : List Pt) : Option BBox :=
  (pts.foldl push1 ⟨none, false⟩).acc

/-- `calculateArcBoundingBox` (src/dxf-loader.js lines 165-188): bounds of
50-step tessellated arc points, with a center±radius fallback for an empty
point list. -/
def calculateArcBoundingBox (tr : TrigEnv) (a : ArcEnt) : BBox :=
  match ptsBBox (generateArcPoints tr a 50) with
  | some bb => bb
  | none => ⟨a.cx - a.radius, a.cy - a.radius, a.cx + a.radius, a.cy + a.radius⟩

/-- One iteration of the `entities.forEach` in `calculateBoundingBox`:
valid entities fold their extremal points into the bounds, invalid ones
are skipped; polylines and splines are filtered vertex by vertex.
(Folding the two extremal corners one after the other equals the source's
simultaneous `Math.min(minX, x1, x2)`-style updates.) -/
def bboxStep (tr : TrigEnv) (s : BState) : Entity → BState
  | .lineE x1 y1 x2 y2 =>
    match lineValid x1 y1 x2 y2 with
    | some (a, b, c, d) => push1 (push1 s (a, b)) (c, d)
    | none => s
  | .circleE cx cy radius =>
    match circleValid cx cy radius with
    | some (a, b, r) => pushCorners s (a - r, b - r) (a + r, b + r)
    | none => s
  | .arcE cx cy radius startAngle endAngle =>
    match arcValid cx cy radius startAngle endAngle with
    | some arc =>
      let bb := calculateArcBoundingBox tr arc
      pushCorners s (bb.minX, bb.minY) (bb.maxX, bb.maxY)
    | none => s
  | .polyE _ vertices =>
    vertices.foldl (fun s2 v =>
      match vertexValid v with
      | some p => push1 s2 p
      | none => s2) s
  | .ellipseE centerX centerY majorAxisLength _ _ =>
    match ellipseValid centerX centerY majorAxisLength with
    | some (a, b, m) => pushCorners s (a - m, b - m) (a + m, b + m)
    | none => s
  | .splineE _ controlPoints =>
    controlPoints.foldl (fun s2 v =>
      match vertexValid v with
      | some p => push1 s2 p
      | none => s2) s

/-- `calculateBoundingBox` (src/dxf-loader.js lines 61-159): fold all
entities, then fail if no valid entity contributed; the residual
`minX === Infinity` check corresponds to an empty running box. -/
def calculateBoundingBox (tr : TrigEnv) (entities : List Entity) : Except String BBox :=
  let s := entities.foldl (bboxStep tr) ⟨none, false⟩
  if s.hasValid = false then
    .error "DXF contains no valid graphic objects"
  else
    match s.acc with
    | none => .error "Could not compute object extents in DXF"
    | some bb => .ok bb

/-- The extremal points an entity contributes to the bounds (the per-claim
specification that `bboxStep` is proved against): empty exactly when the
entity is skipped. -/
def entityPoints (tr : TrigEnv) : Entity → List Pt
  | .lineE x1 y1 x2 y2 =>
    match lineValid x1 y1 x2 y2 with
    | some (a, b, c, d) => [(a, b), (c, d)]
    | none => []
  | .circleE cx cy radius =>
    match circleValid cx cy radius with
    | some (a, b, r) => [(a - r, b - r), (a + r, b + r)]
    | none => []
  | .arcE cx cy radius startAngle endAngle =>
    match arcValid cx cy radius startAngle endAngle with
    | some arc =>
      let bb := calculateArcBoundingBox tr arc
      [(bb.minX, bb.minY), (bb.maxX, bb.maxY)]
    | none => []
  | .polyE _ vertices => vertices.filterMap vertexValid
  | .ellipseE centerX centerY majorAxisLength _ _ =>
    match ellipseValid centerX centerY majorAxisLength with
    | some (a, b, m) => [(a - m, b - m), (a + m, b + m)]
    | none => []
  | .splineE _ controlPoints => controlPoints.filterMap vertexValid

/-- `loadDXF` (src/dxf-loader.js lines 18-54) from the parsed entity list
on: empty-entity check, bounding box, extent checks.  The `isFinite`
re-checks are vacuous over exact rationals, and the contour / drawing
function construction (total, never-throwing; modelled separately) is
omitted from the returned record. -/
def loadDXFFromEntities (tr : TrigEnv) (entities : List Entity) :
    Except String (BBox × ℚ × ℚ) :=
  if entities.isEmpty then
    .error "DXF contains no graphic objects"
  else
    match calculateBoundingBox tr entities with
    | .error e => .error e
    | .ok bb =>
      let width := bb.maxX - bb.minX
      let height := bb.maxY - bb.minY
      if width ≤ 0 ∨ height ≤ 0 then
        .error "Invalid object extents in DXF (width or height <= 0)"
      else
        .ok (bb, width, height)

/- ------------------------------------------------------------------
   Concrete inputs used to instantiate the theorems below
   ------------------------------------------------------------------ -/

/-- A concrete trig environment (any rational approximation of π and any
total cosine/sine stand-ins will do for instantiation: the theorems hold
for every environment). -/
def testTrig : TrigEnv := ⟨355/113, fun _ => 0, fun _ => 0⟩

/-- A concrete fill predicate: filled exactly on the unit square (the
shape every loader-produced predicate has outside the document). -/
def ceDraw : ℚ → ℚ → Bool :=
  fun x y => decide (0 ≤ x ∧ x ≤ 1 ∧ 0 ≤ y ∧ y ≤ 1)

/-- A concrete studio state: 100×100 mm workspace shown on a 100×100 px
canvas, 10 mm cells, square grid, threshold ½, and a loaded 50×50 mm file
(so the file occupies the centered middle quarter of the workspace and
boundary cells sample outside the document). -/
def ceState : StudioState :=
  { workspaceWidthMM := 100, workspaceHeightMM := 100
    pixelWidthMM := 10, pixelHeightMM := 10
    canvasWidth := 100, canvasHeight := 100
    gridOffsetX := 0, gridOffsetY := 0
    gridType := .square, fillThreshold := 1/2
    hasLoadedFile := true, fileWidthMM := 50, fileHeightMM := 50
    originalDrawing := some ceDraw }

/-- The sampler arguments `isBeadFilled` hands to
`calculateBeadFillPercentage` for cell `(0,0)` of `ceState`. -/
def ceArgs : SampleArgs := ⟨0, 0, 10, 10, 100, 100, 1/2, 1/2, 1/4, 1/4⟩

/-- Three line segments forming a right triangle (the middle one stored
with reversed orientation). -/
def segTriangle : List Segment :=
  [⟨"LINE", 0, 0, 10, 0, [(0, 0), (10, 0)]⟩,
   ⟨"LINE", 0, 10, 10, 10, [(0, 10), (10, 10)]⟩,
   ⟨"LINE", 10, 0, 10, 10, [(10, 0), (10, 10)]⟩]

/-- A syntactically valid CIRCLE entity with a negative radius: every
field is present and finite, so the bounding box accepts it, yet the
resulting width/height are negative. -/
def negCircle : Entity :=
  .circleE (some (.num 0)) (some (.num 0)) (some (.num (-5)))

/-- Commands that reset the subpath bookkeeping (`M`/`m`/`Z`/`z`). -/
def isMoveOrClose : PathCmd → Bool
  | .move _ _ _ => true
  | .close => true
  | _ => false

/-- Evaluator invariant: the accumulated point list is non-empty and its
last entry is the normalization of the current point (every drawing
command's final emitted point is its own endpoint). -/
def LastOk (env : PathEnv) (st : PathState) : Prop :=
  st.points ≠ [] ∧ st.points.getLast? = some (normPt env st.curX st.curY)

/- ==================================================================
   Theorems
   ================================================================== -/

/-- The threshold rule is monotone: lowering the threshold (within
`[0, ∞)`) keeps every filled cell filled. -/
theorem classifyFilled_mono {t1 t2 p : ℚ} (h0 : 0 ≤ t1) (h12 : t1 ≤ t2)
    (h : classifyFilled t2 p = true) : classifyFilled t1 p = true := by
  unfold classifyFilled at h ⊢
  by_cases h1 : t1 = 0
  · rw [if_pos h1, decide_eq_true_eq]
    by_cases h2 : t2 = 0
    · rw [if_pos h2, decide_eq_true_eq] at h
      exact h
    · rw [if_neg h2, decide_eq_true_eq] at h
      have ht2 : 0 < t2 := lt_of_le_of_ne (h1 ▸ h12) (Ne.symm h2)
      linarith
  · have ht1 : 0 < t1 := lt_of_le_of_ne h0 (Ne.symm h1)
    have ht2 : 0 < t2 := lt_of_lt_of_le ht1 h12
    rw [if_neg (ne_of_gt ht2), decide_eq_true_eq] at h
    rw [if_neg h1, decide_eq_true_eq]
    linarith

/-- A cell with zero fill percentage is never classified filled, for any
nonnegative threshold. -/
theorem classifyFilled_zero_pct {t : ℚ} (h0 : 0 ≤ t) :
    classifyFilled t 0 = false := by
  unfold classifyFilled
  by_cases h : t = 0
  · simp [h]
  · have : 0 < t := lt_of_le_of_ne h0 (Ne.symm h)
    simp [h, this, not_le.mpr this]

/-- C4: for every contour point and every non-zero scale, projecting
document→workspace (`renderContour`) and then workspace→document (the
sampler's forward transform) reproduces the original point — exactly, in
ideal arithmetic, hence a fortiori within floating-point tolerance.  Both
coordinates use the same `scale = fileMM/workspaceMM`,
`offset = (1-scale)/2` centering parameters. -/
theorem C4_transform_roundtrip (fileW fileH wsW wsH fx fy : ℚ)
    (hx : fileScale fileW wsW ≠ 0) (hy : fileScale fileH wsH ≠ 0) :
    workspaceToDoc (fileScale fileW wsW) (centerOffset (fileScale fileW wsW))
      (docToWorkspace (fileScale fileW wsW) (centerOffset (fileScale fileW wsW)) fx) = fx
    ∧ workspaceToDoc (fileScale fileH wsH) (centerOffset (fileScale fileH wsH))
      (docToWorkspace (fileScale fileH wsH) (centerOffset (fileScale fileH wsH)) fy) = fy := by
  constructor
  · unfold workspaceToDoc docToWorkspace
    field_simp
  · unfold workspaceToDoc docToWorkspace
    field_simp

/-- C4 witness: a 50×80 mm file in a 100×100 mm workspace, round-tripping
the point `(3/10, 7/10)`. -/
theorem C4_transform_roundtrip_witness :
    fileScale 50 100 ≠ 0 ∧ fileScale 80 100 ≠ 0 ∧
    workspaceToDoc (fileScale 50 100) (centerOffset (fileScale 50 100))
      (docToWorkspace (fileScale 50 100) (centerOffset (fileScale 50 100)) (3/10)) = 3/10 :=
  ⟨by norm_num [fileScale], by norm_num [fileScale],
   (C4_transform_roundtrip 50 80 100 100 (3/10) (7/10) (by norm_num [fileScale])
     (by norm_num [fileScale])).1⟩

/-- The coordinate guard of the raster closures: any query whose floored
raster coordinates fall outside `[0, resolution)` returns `false`. -/
theorem rasterGuard_outside (resolution : ℕ) (pixel : ℤ → ℤ → Bool)
    (nx ny : ℚ) (hres : 0 < resolution)
    (hout : nx < 0 ∨ 1 < nx ∨ ny < 0 ∨ 1 < ny) :
    rasterDrawingFunction resolution pixel nx ny = false := by
  unfold rasterDrawingFunction
  have hresQ : (0 : ℚ) < (resolution : ℚ) := by exact_mod_cast hres
  rw [if_pos]
  rcases hout with h | h | h | h
  · left
    rw [Int.lt_iff_add_one_le, ← Int.lt_iff_add_one_le]
    have : nx * (resolution : ℚ) < 0 := mul_neg_of_neg_of_pos h hresQ
    have := Int.floor_le (nx * (resolution : ℚ))
    by_contra hc
    push_neg at hc
    have : (0 : ℚ) ≤ (⌊nx * (resolution : ℚ)⌋ : ℚ) := by exact_mod_cast hc
    linarith [Int.floor_le (nx * (resolution : ℚ))]
  · right; left
    rw [Int.le_floor]
    push_cast
    nlinarith
  · right; right; left
    by_contra hc
    push_neg at hc
    have : (0 : ℚ) ≤ (⌊ny * (resolution : ℚ)⌋ : ℚ) := by exact_mod_cast hc
    have := mul_neg_of_neg_of_pos h hresQ
    linarith [Int.floor_le (ny * (resolution : ℚ))]
  · right; right; right
    rw [Int.le_floor]
    push_cast
    nlinarith

/-- C8: both built fill predicates — the DXF `createDrawingFunction`
closure (arbitrary positive resolution) and the SVG `loadSVG` closure
(resolution 800) — return `false` at every point strictly outside the
normalized `[0,1]×[0,1]` document box, for every raster content. -/
theorem C8_predicate_false_outside (resolution : ℕ) (pixel : ℤ → ℤ → Bool)
    (nx ny : ℚ) (hres : 0 < resolution)
    (hout : nx < 0 ∨ 1 < nx ∨ ny < 0 ∨ 1 < ny) :
    rasterDrawingFunction resolution pixel nx ny = false
    ∧ svgDrawingFunction pixel nx ny = false := by
  refine ⟨rasterGuard_outside resolution pixel nx ny hres hout, ?_⟩
  unfold svgDrawingFunction
  exact rasterGuard_outside 800 pixel nx ny (by norm_num) hout

/-- C8 witness: an all-black raster still reports `false` at `(3/2, 1/2)`,
outside the document. -/
theorem C8_predicate_false_outside_witness :
    0 < 800 ∧ ((3:ℚ)/2 < 0 ∨ 1 < (3:ℚ)/2 ∨ (1:ℚ)/2 < 0 ∨ 1 < (1:ℚ)/2) ∧
    rasterDrawingFunction 800 (fun _ _ => true) (3/2) (1/2) = false ∧
    svgDrawingFunction (fun _ _ => true) (3/2) (1/2) = false := by
  refine ⟨by norm_num, by norm_num, ?_⟩
  exact C8_predicate_false_outside 800 (fun _ _ => true) (3/2) (1/2) (by norm_num)
    (by norm_num)

/-- Counting loop shape: a fold that conditionally increments equals the
starting value plus `countP`. -/
theorem foldl_count {α : Type} (p : α → Bool) (l : List α) (acc : ℕ) :
    l.foldl (fun a x => if p x then a + 1 else a) acc = acc + l.countP p := by
  induction l generalizing acc with
  | nil => simp
  | cons x xs ih =>
    rw [List.foldl_cons, ih, List.countP_cons]
    by_cases h : p x
    · simp only [h, if_true]
      omega
    · rw [if_neg h, if_neg h]
      omega

/-- C3: the fill percentage of a fixed cell does not depend on the
threshold (the sampler never reads it), and the filled classification is
monotone: any cell filled at the higher threshold `t2` is also filled at
the lower threshold `t1`, for thresholds in `[0,1]`. -/
theorem C3_threshold_monotone (st : StudioState) (f : ℚ → ℚ → Bool)
    (t1 t2 : ℚ) (row col : ℕ)
    (h0 : 0 ≤ t1) (h12 : t1 ≤ t2) (h21 : t2 ≤ 1) :
    beadPct { st with fillThreshold := t1 } f row col
      = beadPct { st with fillThreshold := t2 } f row col
    ∧ (isBeadFilled { st with fillThreshold := t2 } row col = true →
       isBeadFilled { st with fillThreshold := t1 } row col = true) := by
  refine ⟨rfl, ?_⟩
  intro h
  have h' : (match st.originalDrawing with
      | none => false
      | some f0 => classifyFilled t2 (beadPct st f0 row col)) = true := h
  show (match st.originalDrawing with
      | none => false
      | some f0 => classifyFilled t1 (beadPct st f0 row col)) = true
  cases hd : st.originalDrawing with
  | none => rw [hd] at h'; exact absurd h' (by simp)
  | some f0 =>
    rw [hd] at h'
    exact classifyFilled_mono h0 h12 h'

/-- C3 witness: `ceState` at thresholds `1/4 ≤ 1/2`, cell `(0,0)`. -/
theorem C3_threshold_monotone_witness :
    (0 : ℚ) ≤ 1/4 ∧ (1/4 : ℚ) ≤ 1/2 ∧ (1/2 : ℚ) ≤ 1 ∧
    beadPct { ceState with fillThreshold := 1/4 } ceDraw 0 0
      = beadPct { ceState with fillThreshold := 1/2 } ceDraw 0 0 :=
  ⟨by norm_num, by norm_num, by norm_num,
   (C3_threshold_monotone ceState ceDraw (1/4) (1/2) 0 0
     (by norm_num) (by norm_num) (by norm_num)).1⟩

/-- C1: the filled classification of every sampled cell follows the
asymmetric threshold rule — at threshold 0 a cell is filled iff its fill
percentage is strictly positive, at any other threshold iff the
percentage reaches the threshold — in `isBeadFilled` and in
`countFilledBeads` (which counts exactly the cells passing the same
rule); in particular a cell with zero fill percentage is never filled
when the threshold is nonnegative, including at threshold 0. -/
theorem C1_threshold_rule (st : StudioState) (f : ℚ → ℚ → Bool)
    (row col gw gh : ℕ) (hf : st.originalDrawing = some f)
    (ht : 0 ≤ st.fillThreshold) :
    (isBeadFilled st row col = true ↔
      (if st.fillThreshold = 0 then 0 < beadPct st f row col
       else st.fillThreshold ≤ beadPct st f row col))
    ∧ (beadPct st f row col = 0 → isBeadFilled st row col = false)
    ∧ countFilledBeads st gw gh =
        (cellPairs gh gw).countP
          (fun rc => classifyFilled st.fillThreshold (countCellPct st f gw gh rc.1 rc.2))
    ∧ (∀ r c : ℕ, countCellPct st f gw gh r c = 0 →
        classifyFilled st.fillThreshold (countCellPct st f gw gh r c) = false) := by
  refine ⟨?_, ?_, ?_, ?_⟩
  · unfold isBeadFilled
    simp only [hf]
    unfold classifyFilled
    by_cases h0 : st.fillThreshold = 0
    · simp [h0]
    · simp [h0]
  · intro hz
    unfold isBeadFilled
    simp only [hf, hz]
    exact classifyFilled_zero_pct ht
  · unfold countFilledBeads
    simp only [hf]
    rw [foldl_count, Nat.zero_add]
  · intro r c hz
    rw [hz]
    exact classifyFilled_zero_pct ht

/-- C1 witness: `ceState` (threshold `1/2`), cell `(0,0)` of a 10×10 grid. -/
theorem C1_threshold_rule_witness :
    ceState.originalDrawing = some ceDraw ∧ (0 : ℚ) ≤ ceState.fillThreshold ∧
    countFilledBeads ceState 10 10 =
      (cellPairs 10 10).countP
        (fun rc => classifyFilled ceState.fillThreshold
          (countCellPct ceState ceDraw 10 10 rc.1 rc.2)) :=
  ⟨rfl, by norm_num [ceState],
   (C1_threshold_rule ceState ceDraw 0 0 10 10 rfl (by norm_num [ceState])).2.2.1⟩

/-- The JS remainder of a nonnegative dividend by a positive divisor lies
in `[0, b)`. -/
theorem jsRem_nonneg {a b : ℚ} (hb : 0 < b) (ha : 0 ≤ a) :
    0 ≤ jsRem a b ∧ jsRem a b < b := by
  unfold jsRem ratTrunc
  have hq : 0 ≤ a / b := div_nonneg ha (le_of_lt hb)
  rw [if_pos hq]
  have h1 : ((⌊a / b⌋ : ℚ)) ≤ a / b := Int.floor_le _
  have h2 : a / b < (⌊a / b⌋ : ℚ) + 1 := Int.lt_floor_add_one _
  constructor
  · have := (le_div_iff₀ hb).mp h1
    linarith
  · have := (div_lt_iff₀ hb).mp h2
    nlinarith

/-- The JS remainder of a negative dividend by a positive divisor lies in
`(-b, 0]`. -/
theorem jsRem_neg {a b : ℚ} (hb : 0 < b) (ha : a < 0) :
    -b < jsRem a b ∧ jsRem a b ≤ 0 := by
  unfold jsRem ratTrunc
  have hq : ¬ (0 ≤ a / b) := by
    rw [not_le]
    exact div_neg_of_neg_of_pos ha hb
  rw [if_neg hq]
  have hbne : b ≠ 0 := ne_of_gt hb
  have h1 : ((⌊-(a / b)⌋ : ℚ)) ≤ -(a / b) := Int.floor_le _
  have h2 : -(a / b) < (⌊-(a / b)⌋ : ℚ) + 1 := Int.lt_floor_add_one _
  have hid : a / b * b = a := div_mul_cancel₀ a hbne
  have e1 : (((-⌊-(a / b)⌋ : ℤ)) : ℚ) = -((⌊-(a / b)⌋ : ℤ) : ℚ) := by push_cast; ring
  rw [e1]
  constructor
  · nlinarith [mul_lt_mul_of_pos_right h2 hb]
  · nlinarith [mul_le_mul_of_nonneg_right h1 hb.le]

/-- The arc-angle normalization lands in `[0, twoPi)`. -/
theorem normalizeAngle_bounds (twoPi rad : ℚ) (h : 0 < twoPi) :
    0 ≤ normalizeAngle twoPi rad ∧ normalizeAngle twoPi rad < twoPi := by
  unfold normalizeAngle
  rcases le_or_lt 0 rad with hr | hr
  · obtain ⟨h0, h1⟩ := jsRem_nonneg h hr
    rw [if_neg (not_lt.mpr h0)]
    exact ⟨h0, h1⟩
  · obtain ⟨h0, h1⟩ := jsRem_neg h hr
    by_cases hneg : jsRem rad twoPi < 0
    · rw [if_pos hneg]
      constructor
      · linarith
      · linarith
    · rw [if_neg hneg]
      push_neg at hneg
      exact ⟨hneg, by linarith⟩

/-- The raw counter-clockwise sweep lies in `[0, twoPi)`. -/
theorem arcSweepRaw_bounds (tr : TrigEnv) (arc : ArcEnt) (h : 0 < tr.piQ) :
    0 ≤ arcSweepRaw tr arc ∧ arcSweepRaw tr arc < 2 * tr.piQ := by
  unfold arcSweepRaw
  have htp : 0 < 2 * tr.piQ := by linarith
  obtain ⟨hs0, hs1⟩ := normalizeAngle_bounds (2 * tr.piQ) (arc.startAngle * tr.piQ / 180) htp
  obtain ⟨he0, he1⟩ := normalizeAngle_bounds (2 * tr.piQ) (arc.endAngle * tr.piQ / 180) htp
  set s := normalizeAngle (2 * tr.piQ) (arc.startAngle * tr.piQ / 180)
  set e := normalizeAngle (2 * tr.piQ) (arc.endAngle * tr.piQ / 180)
  by_cases hd : e - s < 0
  · rw [if_pos hd]
    constructor
    · linarith
    · linarith
  · rw [if_neg hd]
    push_neg at hd
    constructor
    · linarith
    · linarith

/-- C5: for every arc (finite fields, positive radius — in ideal
arithmetic every rational is finite) and every trig environment with a
positive π stand-in, `generateArcPoints` normalizes both angles into
`[0, 2π)`, computes the sweep as the counter-clockwise distance from
start to end (a value in `[0, 2π)`), promotes a numerically ~0 sweep
(`< 0.001`) to a full circle `2π` instead of a zero-length arc, and
returns an ordered point list with at least 2 points (in fact
`actualSteps + 1 ≥ 3`). -/
theorem C5_generateArcPoints (tr : TrigEnv) (arc : ArcEnt) (steps : ℕ)
    (hpi : 0 < tr.piQ) (hr : 0 < arc.radius) :
    (0 ≤ normalizeAngle (2 * tr.piQ) (arc.startAngle * tr.piQ / 180) ∧
       normalizeAngle (2 * tr.piQ) (arc.startAngle * tr.piQ / 180) < 2 * tr.piQ)
    ∧ (0 ≤ normalizeAngle (2 * tr.piQ) (arc.endAngle * tr.piQ / 180) ∧
       normalizeAngle (2 * tr.piQ) (arc.endAngle * tr.piQ / 180) < 2 * tr.piQ)
    ∧ (0 ≤ arcSweepRaw tr arc ∧ arcSweepRaw tr arc < 2 * tr.piQ)
    ∧ (arcSweepRaw tr arc < 1/1000 → arcSweep tr arc = 2 * tr.piQ)
    ∧ (¬ arcSweepRaw tr arc < 1/1000 → arcSweep tr arc = arcSweepRaw tr arc)
    ∧ (generateArcPoints tr arc steps).length = arcActualSteps tr arc steps + 1
    ∧ 2 ≤ (generateArcPoints tr arc steps).length := by
  have htp : 0 < 2 * tr.piQ := by linarith
  refine ⟨normalizeAngle_bounds _ _ htp, normalizeAngle_bounds _ _ htp,
    arcSweepRaw_bounds tr arc hpi, ?_, ?_, ?_, ?_⟩
  · intro hsmall
    unfold arcSweep
    rw [if_pos hsmall]
  · intro hbig
    unfold arcSweep
    rw [if_neg hbig]
  · unfold generateArcPoints
    simp
  · unfold generateArcPoints
    simp only [List.length_map, List.length_range]
    have h2 : (2 : ℤ) ≤ max 2 (max (steps : ℤ) ⌊arcSweep tr arc * 30 / (2 * tr.piQ)⌋) :=
      le_max_left _ _
    unfold arcActualSteps
    omega

/-- C5 witness: a quarter arc from 0° to 90° with radius 1 under a
rational π stand-in. -/
theorem C5_generateArcPoints_witness :
    0 < testTrig.piQ ∧ 0 < (⟨0, 0, 1, 0, 90⟩ : ArcEnt).radius ∧
    2 ≤ (generateArcPoints testTrig ⟨0, 0, 1, 0, 90⟩ 30).length :=
  ⟨by norm_num [testTrig], by norm_num,
   (C5_generateArcPoints testTrig ⟨0, 0, 1, 0, 90⟩ 30
     (by norm_num [testTrig]) (by norm_num)).2.2.2.2.2.2⟩

/-- A successful per-segment match returns the segment itself or its
reversed copy. -/
theorem matchTry_equiv {cx cy : ℚ} {s s' : Segment}
    (h : matchTry cx cy s = some s') : SegEquiv s s' := by
  unfold matchTry at h
  by_cases h1 : |s.startX - cx| < stitchTolerance ∧ |s.startY - cy| < stitchTolerance
  · rw [if_pos h1] at h
    exact Or.inl (Option.some.inj h).symm
  · rw [if_neg h1] at h
    by_cases h2 : |s.endX - cx| < stitchTolerance ∧ |s.endY - cy| < stitchTolerance
    · rw [if_pos h2] at h
      exact Or.inr (Option.some.inj h).symm
    · rw [if_neg h2] at h
      exact absurd h (by simp)

/-- Unfolding equation for the pool search (empty pool). -/
theorem findFirstMatch_nil (cx cy : ℚ) : findFirstMatch cx cy [] = none := rfl

/-- Unfolding equation for the pool search (non-empty pool). -/
theorem findFirstMatch_cons (cx cy : ℚ) (s : Segment) (l : List Segment) :
    findFirstMatch cx cy (s :: l) =
      (match matchTry cx cy s with
       | some t => some (t, l)
       | none => (findFirstMatch cx cy l).map (fun p => (p.1, s :: p.2))) := rfl

/-- A successful pool search removes exactly one pool element, handing
back that element (possibly reversed) and the rest of the pool. -/
theorem findFirstMatch_spec {cx cy : ℚ} {l rest : List Segment} {s' : Segment}
    (h : findFirstMatch cx cy l = some (s', rest)) :
    ∃ a, SegEquiv a s' ∧ l.Perm (a :: rest) := by
  induction l generalizing rest with
  | nil =>
    rw [findFirstMatch_nil] at h
    exact absurd h (by simp)
  | cons s tail ih =>
    rw [findFirstMatch_cons] at h
    cases hm : matchTry cx cy s with
    | some t =>
      rw [hm] at h
      have h2 : (t, tail) = (s', rest) := Option.some.inj h
      injection h2 with h3 h4
      subst h3
      subst h4
      exact ⟨s, matchTry_equiv hm, List.Perm.refl _⟩
    | none =>
      rw [hm] at h
      cases hr : findFirstMatch cx cy tail with
      | none =>
        rw [hr] at h
        exact absurd h (by simp)
      | some p =>
        rw [hr] at h
        obtain ⟨t, r⟩ := p
        have h2 : (t, s :: r) = (s', rest) := Option.some.inj h
        injection h2 with h3 h4
        subst h3
        subst h4
        obtain ⟨a, ha, hperm⟩ := ih hr
        exact ⟨a, ha, (hperm.cons s).trans (List.Perm.swap a s r)⟩

/-- Unfolding equation for the stitching loop (no fuel). -/
theorem orderLoop_zero (cx cy : ℚ) (remaining : List Segment) :
    orderLoop 0 cx cy remaining = remaining := rfl

/-- Unfolding equation for the stitching loop (one iteration). -/
theorem orderLoop_succ (fuel : ℕ) (cx cy : ℚ) (remaining : List Segment) :
    orderLoop (fuel + 1) cx cy remaining =
      (match findFirstMatch cx cy remaining with
       | none => remaining
       | some (s', rest) => s' :: orderLoop fuel s'.endX s'.endY rest) := rfl

/-- The stitching loop returns a permutation-up-to-reversal of its
remaining pool, regardless of fuel. -/
theorem orderLoop_perm (fuel : ℕ) (cx cy : ℚ) (remaining : List Segment) :
    ∃ l, remaining.Perm l ∧ List.Forall₂ SegEquiv l (orderLoop fuel cx cy remaining) := by
  induction fuel generalizing cx cy remaining with
  | zero =>
    rw [orderLoop_zero]
    exact ⟨remaining, List.Perm.refl _,
      List.forall₂_same.mpr (fun a _ => Or.inl rfl)⟩
  | succ n ih =>
    rw [orderLoop_succ]
    cases hf : findFirstMatch cx cy remaining with
    | none =>
      exact ⟨remaining, List.Perm.refl _,
        List.forall₂_same.mpr (fun a _ => Or.inl rfl)⟩
    | some p =>
      obtain ⟨s', rest⟩ := p
      obtain ⟨a, ha, hperm⟩ := findFirstMatch_spec hf
      obtain ⟨l', hperm', hf2⟩ := ih s'.endX s'.endY rest
      exact ⟨a :: l', hperm.trans (hperm'.cons a), List.Forall₂.cons ha hf2⟩

/-- The stitching loop preserves the pool size (every segment is consumed
or appended as a leftover). -/
theorem orderLoop_length (fuel : ℕ) (cx cy : ℚ) (remaining : List Segment) :
    (orderLoop fuel cx cy remaining).length = remaining.length := by
  obtain ⟨l, hperm, hf2⟩ := orderLoop_perm fuel cx cy remaining
  rw [← hf2.length_eq, ← hperm.length_eq]

/-- C6: stitching never fails — for every non-empty segment list it
returns an ordered result containing exactly as many segments as the
input (matched ones in stitching order, leftovers appended), starting
from segment 0. -/
theorem C6_orderSegments_total (segments : List Segment) (h : segments ≠ []) :
    (orderSegments segments).length = segments.length ∧
    (orderSegments segments).head? = segments.head? := by
  cases segments with
  | nil => exact absurd rfl h
  | cons s rest =>
    rw [show orderSegments (s :: rest) = s :: orderLoop rest.length s.endX s.endY rest
        from rfl]
    refine ⟨?_, rfl⟩
    simp only [List.length_cons, orderLoop_length]

/-- C6 witness: the three-segment triangle pool. -/
theorem C6_orderSegments_total_witness :
    segTriangle ≠ [] ∧ (orderSegments segTriangle).length = segTriangle.length :=
  ⟨by simp [segTriangle], (C6_orderSegments_total segTriangle (by simp [segTriangle])).1⟩

/-- C10: the output of segment ordering is a permutation of the input up
to per-segment reversal — some permutation of the input is pointwise
equal-or-reversed to the output, so every input segment appears exactly
once and nothing is added, dropped, or otherwise modified. -/
theorem C10_orderSegments_perm (segments : List Segment) (h : segments ≠ []) :
    ∃ l, segments.Perm l ∧ List.Forall₂ SegEquiv l (orderSegments segments) := by
  cases segments with
  | nil => exact absurd rfl h
  | cons s rest =>
    rw [show orderSegments (s :: rest) = s :: orderLoop rest.length s.endX s.endY rest
        from rfl]
    obtain ⟨l', hperm, hf2⟩ := orderLoop_perm rest.length s.endX s.endY rest
    exact ⟨s :: l', hperm.cons s, List.Forall₂.cons (Or.inl rfl) hf2⟩

/-- C10 witness: the triangle pool again (its own theorem instance). -/
theorem C10_orderSegments_perm_witness :
    segTriangle ≠ [] ∧
    ∃ l, segTriangle.Perm l ∧ List.Forall₂ SegEquiv l (orderSegments segTriangle) :=
  ⟨by simp [segTriangle], C10_orderSegments_perm segTriangle (by simp [segTriangle])⟩

/-- The main-window sampler counts every sub-sample in `totalPoints`,
no matter where it lands: the total is the size of the iteration space. -/
theorem mainSampleCounts_total (st : StudioState) (f : ℚ → ℚ → Bool) (a : SampleArgs) :
    (mainSampleCounts st f a).2 = samplePairs.length := by
  have aux : ∀ (l : List (ℕ × ℕ)) (acc : ℕ × ℕ),
      (l.foldl
        (fun acc q =>
          let p := sampleFileXY st a q.2 q.1
          ((if f p.1 p.2 then acc.1 + 1 else acc.1), acc.2 + 1))
        acc).2 = acc.2 + l.length := by
    intro l
    induction l with
    | nil => intro acc; simp
    | cons q tail ih =>
      intro acc
      rw [List.foldl_cons, ih]
      simp only [List.length_cons]
      omega
  have : mainSampleCounts st f a
      = samplePairs.foldl
        (fun acc q =>
          let p := sampleFileXY st a q.2 q.1
          ((if f p.1 p.2 then acc.1 + 1 else acc.1), acc.2 + 1))
        (0, 0) := rfl
  rw [this, aux]
  simp

/-- The renderer's sampler counts in `totalPoints` exactly the samples
that are not skipped by the out-of-document test. -/
theorem rendererSampleCounts_total (st : StudioState) (f : ℚ → ℚ → Bool) (a : SampleArgs) :
    (rendererSampleCounts st f a).2 =
      samplePairs.countP (fun q => !(fileActive st && sampleOutsideDoc st a q.2 q.1)) := by
  have aux : ∀ (l : List (ℕ × ℕ)) (acc : ℕ × ℕ),
      (l.foldl
        (fun acc q =>
          if fileActive st && sampleOutsideDoc st a q.2 q.1 then acc
          else
            let p := sampleFileXY st a q.2 q.1
            ((if f p.1 p.2 then acc.1 + 1 else acc.1), acc.2 + 1))
        acc).2 = acc.2 + l.countP (fun q => !(fileActive st && sampleOutsideDoc st a q.2 q.1)) := by
    intro l
    induction l with
    | nil => intro acc; simp
    | cons q tail ih =>
      intro acc
      rw [List.foldl_cons, List.countP_cons]
      by_cases hb : (fileActive st && sampleOutsideDoc st a q.2 q.1) = true
      · rw [if_pos hb, ih, hb]
        simp
      · rw [if_neg hb, ih]
        simp only [Bool.not_eq_true] at hb
        rw [hb]
        simp
        omega
  have : rendererSampleCounts st f a
      = samplePairs.foldl
        (fun acc q =>
          if fileActive st && sampleOutsideDoc st a q.2 q.1 then acc
          else
            let p := sampleFileXY st a q.2 q.1
            ((if f p.1 p.2 then acc.1 + 1 else acc.1), acc.2 + 1))
        (0, 0) := rfl
  rw [this, aux]
  simp

/-- C2 (amended): it is the renderer's sampler
(src/canvas-renderer.js) that excludes out-of-document sub-samples from
`totalSamples` when a file transform is active, and a cell all of whose
samples land outside the document gets `totalSamples = 0`, fill
percentage 0, and is classified unfilled at every nonnegative
threshold. -/
theorem C2_renderer_excludes_outside (st : StudioState) (f : ℚ → ℚ → Bool)
    (a : SampleArgs) (hact : fileActive st = true) :
    (rendererSampleCounts st f a).2 =
      samplePairs.countP (fun q => !sampleOutsideDoc st a q.2 q.1)
    ∧ ((∀ q ∈ samplePairs, sampleOutsideDoc st a q.2 q.1 = true) →
        rendererBeadFillPercentage st f a = 0
        ∧ ∀ t : ℚ, 0 ≤ t → classifyFilled t (rendererBeadFillPercentage st f a) = false) := by
  have htotal : (rendererSampleCounts st f a).2 =
      samplePairs.countP (fun q => !sampleOutsideDoc st a q.2 q.1) := by
    rw [rendererSampleCounts_total]
    congr 1
    funext q
    rw [hact, Bool.true_and]
  refine ⟨htotal, ?_⟩
  intro hall
  have hzero : (rendererSampleCounts st f a).2 = 0 := by
    rw [htotal]
    rw [List.countP_eq_zero]
    intro q hq
    simp [hall q hq]
  have hpct : rendererBeadFillPercentage st f a = 0 := by
    show (if 0 < (rendererSampleCounts st f a).2
          then ((rendererSampleCounts st f a).1 : ℚ) / ((rendererSampleCounts st f a).2 : ℚ)
          else 0) = 0
    rw [hzero]
    simp
  refine ⟨hpct, ?_⟩
  intro t ht
  rw [hpct]
  exact classifyFilled_zero_pct ht

/-- C2 amended-theorem witness: the all-outside corner cell of `ceState`. -/
theorem C2_renderer_excludes_outside_witness :
    fileActive ceState = true ∧
    (rendererSampleCounts ceState ceDraw ceArgs).2 =
      samplePairs.countP (fun q => !sampleOutsideDoc ceState ceArgs q.2 q.1) :=
  ⟨by norm_num [fileActive, ceState],
   (C2_renderer_excludes_outside ceState ceDraw ceArgs
     (by norm_num [fileActive, ceState])).1⟩

set_option maxHeartbeats 4000000 in
/-- C2 counterexample: in `ceState` the transform is active
(`scale = 1/2`, centered), cell `(0,0)` is the cell `isBeadFilled`
samples with exactly the arguments `ceArgs`, every one of its 25
sub-samples lands outside `[0,1]×[0,1]` in document space — yet the
main-window sampler of src/main.js (the code the claim cites) counts all
of them: `totalPoints = 25`, not `0`, and a fill percentage (0) is
reported.  The claimed exclusion does not happen in this sampler. -/
theorem C2_counterexample :
    fileActive ceState = true
    ∧ fileTransformParams ceState = (1/2, 1/2, 1/4, 1/4)
    ∧ beadXY ceState 0 0 = (0, 0)
    ∧ samplePairs.all (fun q => sampleOutsideDoc ceState ceArgs q.2 q.1) = true
    ∧ (mainSampleCounts ceState ceDraw ceArgs).2 = 25
    ∧ calculateBeadFillPercentage ceState ceDraw ceArgs = 0 := by
  refine ⟨by norm_num [fileActive, ceState], ?_, ?_, ?_, ?_, ?_⟩
  · norm_num [fileTransformParams, fileActive, ceState]
  · norm_num [beadXY, gridWidthOf, gridHeightOf, ceState]
  · norm_num [samplePairs, sampleOutsideDoc, sampleFileXY, fileActive, ceState, ceArgs,
      SAMPLE_GRID_SIZE, List.range_succ]
  · rw [mainSampleCounts_total]
    rfl
  · norm_num [calculateBeadFillPercentage, mainSampleCounts, samplePairs, sampleFileXY,
      fileActive, ceState, ceArgs, ceDraw, SAMPLE_GRID_SIZE, List.range_succ]

/-- A vertex fold with no valid vertices leaves the bounds untouched. -/
theorem vfold_of_empty (vs : List (Option JSVal × Option JSVal)) (s : BState)
    (h : vs.filterMap vertexValid = []) :
    vs.foldl (fun s2 v =>
      match vertexValid v with
      | some p => push1 s2 p
      | none => s2) s = s := by
  induction vs generalizing s with
  | nil => rfl
  | cons v tail ih =>
    rw [List.filterMap_cons] at h
    cases hv : vertexValid v with
    | some p =>
      rw [hv] at h
      exact absurd h (by simp)
    | none =>
      rw [hv] at h
      rw [List.foldl_cons]
      have : (match vertexValid v with
          | some p => push1 s p
          | none => s) = s := by rw [hv]
      rw [this]
      exact ih s h

/-- The vertex fold raises `hasValidEntity` exactly when some vertex is
valid. -/
theorem vfold_hasValid (vs : List (Option JSVal × Option JSVal)) (s : BState) :
    (vs.foldl (fun s2 v =>
      match vertexValid v with
      | some p => push1 s2 p
      | none => s2) s).hasValid
      = (s.hasValid || !(vs.filterMap vertexValid).isEmpty) := by
  induction vs generalizing s with
  | nil => simp
  | cons v tail ih =>
    rw [List.foldl_cons, List.filterMap_cons]
    cases hv : vertexValid v with
    | some p =>
      rw [ih]
      simp [push1]
    | none =>
      rw [ih]

/-- The vertex fold keeps the running box empty exactly when it was empty
and no vertex is valid. -/
theorem vfold_acc_none (vs : List (Option JSVal × Option JSVal)) (s : BState) :
    ((vs.foldl (fun s2 v =>
      match vertexValid v with
      | some p => push1 s2 p
      | none => s2) s).acc = none
      ↔ (s.acc = none ∧ vs.filterMap vertexValid = [])) := by
  induction vs generalizing s with
  | nil => simp
  | cons v tail ih =>
    rw [List.foldl_cons, List.filterMap_cons]
    cases hv : vertexValid v with
    | some p =>
      rw [ih]
      simp [push1]
    | none =>
      rw [ih]

/-- An entity with no valid contribution is skipped: the fold step leaves
the state unchanged. -/
theorem bboxStep_of_empty (tr : TrigEnv) (s : BState) (e : Entity)
    (h : entityPoints tr e = []) : bboxStep tr s e = s := by
  cases e with
  | lineE x1 y1 x2 y2 =>
    cases hv : lineValid x1 y1 x2 y2 with
    | some q =>
      obtain ⟨a, b, c, d⟩ := q
      simp [entityPoints, hv] at h
    | none => simp [bboxStep, hv]
  | circleE cx cy radius =>
    cases hv : circleValid cx cy radius with
    | some q =>
      obtain ⟨a, b, r⟩ := q
      simp [entityPoints, hv] at h
    | none => simp [bboxStep, hv]
  | arcE cx cy radius startAngle endAngle =>
    cases hv : arcValid cx cy radius startAngle endAngle with
    | some arc => simp [entityPoints, hv] at h
    | none => simp [bboxStep, hv]
  | polyE closed vertices =>
    simp only [entityPoints] at h
    simp only [bboxStep]
    exact vfold_of_empty vertices s h
  | ellipseE centerX centerY majorAxisLength minorAxisLength rotDeg =>
    cases hv : ellipseValid centerX centerY majorAxisLength with
    | some q =>
      obtain ⟨a, b, m⟩ := q
      simp [entityPoints, hv] at h
    | none => simp [bboxStep, hv]
  | splineE closed controlPoints =>
    simp only [entityPoints] at h
    simp only [bboxStep]
    exact vfold_of_empty controlPoints s h

/-- The fold step raises `hasValidEntity` exactly when the entity
contributes. -/
theorem bboxStep_hasValid (tr : TrigEnv) (s : BState) (e : Entity) :
    (bboxStep tr s e).hasValid = (s.hasValid || !(entityPoints tr e).isEmpty) := by
  cases e with
  | lineE x1 y1 x2 y2 =>
    cases hv : lineValid x1 y1 x2 y2 with
    | some q =>
      obtain ⟨a, b, c, d⟩ := q
      simp [bboxStep, entityPoints, hv, push1]
    | none => simp [bboxStep, entityPoints, hv]
  | circleE cx cy radius =>
    cases hv : circleValid cx cy radius with
    | some q =>
      obtain ⟨a, b, r⟩ := q
      simp [bboxStep, entityPoints, hv, pushCorners]
    | none => simp [bboxStep, entityPoints, hv]
  | arcE cx cy radius startAngle endAngle =>
    cases hv : arcValid cx cy radius startAngle endAngle with
    | some arc => simp [bboxStep, entityPoints, hv, pushCorners]
    | none => simp [bboxStep, entityPoints, hv]
  | polyE closed vertices =>
    simp only [bboxStep, entityPoints]
    exact vfold_hasValid vertices s
  | ellipseE centerX centerY majorAxisLength minorAxisLength rotDeg =>
    cases hv : ellipseValid centerX centerY majorAxisLength with
    | some q =>
      obtain ⟨a, b, m⟩ := q
      simp [bboxStep, entityPoints, hv, pushCorners]
    | none => simp [bboxStep, entityPoints, hv]
  | splineE closed controlPoints =>
    simp only [bboxStep, entityPoints]
    exact vfold_hasValid controlPoints s

/-- The fold step keeps the running box empty exactly when it was empty
and the entity contributes nothing. -/
theorem bboxStep_acc_none (tr : TrigEnv) (s : BState) (e : Entity) :
    ((bboxStep tr s e).acc = none ↔ (s.acc = none ∧ entityPoints tr e = [])) := by
  cases e with
  | lineE x1 y1 x2 y2 =>
    cases hv : lineValid x1 y1 x2 y2 with
    | some q =>
      obtain ⟨a, b, c, d⟩ := q
      simp [bboxStep, entityPoints, hv, push1]
    | none => simp [bboxStep, entityPoints, hv]
  | circleE cx cy radius =>
    cases hv : circleValid cx cy radius with
    | some q =>
      obtain ⟨a, b, r⟩ := q
      simp [bboxStep, entityPoints, hv, pushCorners]
    | none => simp [bboxStep, entityPoints, hv]
  | arcE cx cy radius startAngle endAngle =>
    cases hv : arcValid cx cy radius startAngle endAngle with
    | some arc => simp [bboxStep, entityPoints, hv, pushCorners]
    | none => simp [bboxStep, entityPoints, hv]
  | polyE closed vertices =>
    simp only [bboxStep, entityPoints]
    exact vfold_acc_none vertices s
  | ellipseE centerX centerY majorAxisLength minorAxisLength rotDeg =>
    cases hv : ellipseValid centerX centerY majorAxisLength with
    | some q =>
      obtain ⟨a, b, m⟩ := q
      simp [bboxStep, entityPoints, hv, pushCorners]
    | none => simp [bboxStep, entityPoints, hv]
  | splineE closed controlPoints =>
    simp only [bboxStep, entityPoints]
    exact vfold_acc_none controlPoints s

/-- Folding the whole entity list is the same as folding only the
entities that contribute. -/
theorem bboxFold_filter (tr : TrigEnv) (entities : List Entity) (s : BState) :
    entities.foldl (bboxStep tr) s
      = (entities.filter (fun e => !(entityPoints tr e).isEmpty)).foldl (bboxStep tr) s := by
  induction entities generalizing s with
  | nil => rfl
  | cons e tail ih =>
    cases hb : (entityPoints tr e).isEmpty with
    | true =>
      have he : entityPoints tr e = [] := by
        cases hx : entityPoints tr e with
        | nil => rfl
        | cons a l =>
          rw [hx] at hb
          exact absurd hb (by simp)
      have hfil : (e :: tail).filter (fun e => !(entityPoints tr e).isEmpty)
          = tail.filter (fun e => !(entityPoints tr e).isEmpty) :=
        List.filter_cons_of_neg (by simp [hb])
      rw [hfil, List.foldl_cons, bboxStep_of_empty tr s e he]
      exact ih s
    | false =>
      have hfil : (e :: tail).filter (fun e => !(entityPoints tr e).isEmpty)
          = e :: tail.filter (fun e => !(entityPoints tr e).isEmpty) :=
        List.filter_cons_of_pos (by simp [hb])
      rw [hfil, List.foldl_cons, List.foldl_cons]
      exact ih (bboxStep tr s e)

/-- `hasValidEntity` after the whole fold: true exactly when some entity
contributed. -/
theorem bboxFold_hasValid (tr : TrigEnv) (entities : List Entity) (s : BState) :
    (entities.foldl (bboxStep tr) s).hasValid
      = (s.hasValid || entities.any (fun e => !(entityPoints tr e).isEmpty)) := by
  induction entities generalizing s with
  | nil => simp
  | cons e tail ih =>
    rw [List.foldl_cons, ih, bboxStep_hasValid, List.any_cons, Bool.or_assoc]

/-- The running box is still at its `±Infinity` initial values after the
whole fold exactly when it started empty and no entity contributed. -/
theorem bboxFold_acc_none (tr : TrigEnv) (entities : List Entity) (s : BState) :
    ((entities.foldl (bboxStep tr) s).acc = none
      ↔ (s.acc = none ∧ ∀ e ∈ entities, entityPoints tr e = [])) := by
  induction entities generalizing s with
  | nil => simp
  | cons e tail ih =>
    rw [List.foldl_cons, ih, bboxStep_acc_none]
    constructor
    · rintro ⟨⟨h1, h2⟩, h3⟩
      refine ⟨h1, ?_⟩
      intro x hx
      rcases List.mem_cons.mp hx with hx | hx
      · exact hx ▸ h2
      · exact h3 x hx
    · rintro ⟨h1, h2⟩
      exact ⟨⟨h1, h2 e (List.mem_cons_self e tail)⟩,
        fun x hx => h2 x (List.mem_cons_of_mem e hx)⟩

/-- `calculateBoundingBox` fails exactly when no entity contributes any
valid coordinate data (and then with the no-valid-objects error, never
the residual Infinity check). -/
theorem calculateBoundingBox_error_iff (tr : TrigEnv) (entities : List Entity) :
    (∃ msg, calculateBoundingBox tr entities = .error msg)
      ↔ ∀ e ∈ entities, entityPoints tr e = [] := by
  by_cases hall : ∀ e ∈ entities, entityPoints tr e = []
  · have hval : (entities.foldl (bboxStep tr) ⟨none, false⟩).hasValid = false := by
      rw [bboxFold_hasValid]
      simp only [Bool.false_or]
      rw [List.any_eq_false]
      intro x hx
      simp [hall x hx]
    simp only [calculateBoundingBox]
    rw [hval]
    exact iff_of_true ⟨_, by rw [if_pos rfl]⟩ hall
  · have hval : (entities.foldl (bboxStep tr) ⟨none, false⟩).hasValid = true := by
      rw [bboxFold_hasValid]
      simp only [Bool.false_or]
      cases hany : entities.any (fun e => !(entityPoints tr e).isEmpty) with
      | true => rfl
      | false =>
        rw [List.any_eq_false] at hany
        exfalso
        apply hall
        intro x hx
        have hx2 := hany x hx
        have hx3 : (entityPoints tr x).isEmpty = true := by
          by_contra hc
          apply hx2
          show (!(entityPoints tr x).isEmpty) = true
          cases hie : (entityPoints tr x).isEmpty with
          | true => exact absurd hie hc
          | false => rfl
        exact List.isEmpty_iff.mp hx3
    have hacc : (entities.foldl (bboxStep tr) ⟨none, false⟩).acc ≠ none := by
      rw [Ne, bboxFold_acc_none]
      rintro ⟨-, h2⟩
      exact hall h2
    simp only [calculateBoundingBox]
    rw [hval]
    cases hacc2 : (entities.foldl (bboxStep tr) ⟨none, false⟩).acc with
    | none => exact absurd hacc2 hacc
    | some bb =>
      simp [hall]

/-- C7 (amended): bounding-box computation skips invalid coordinate data
(whole entities with missing or non-finite scalar fields, individual
invalid vertices of polylines/splines) — folding the entity list equals
folding only the contributing entities — and the DXF load fails exactly
when zero valid entities/vertices remain or the resulting bounding box
has NON-POSITIVE (not just zero) width or height; non-finite extents
cannot arise in exact arithmetic. -/
theorem C7_bbox_skip_and_load_errors (tr : TrigEnv) (entities : List Entity) :
    calculateBoundingBox tr entities
      = calculateBoundingBox tr (entities.filter (fun e => !(entityPoints tr e).isEmpty))
    ∧ ((∃ msg, calculateBoundingBox tr entities = .error msg) ↔
        ∀ e ∈ entities, entityPoints tr e = [])
    ∧ ((∃ msg, loadDXFFromEntities tr entities = .error msg) ↔
        ((∀ e ∈ entities, entityPoints tr e = []) ∨
         (∃ bb, calculateBoundingBox tr entities = .ok bb ∧
           (bb.maxX - bb.minX ≤ 0 ∨ bb.maxY - bb.minY ≤ 0)))) := by
  refine ⟨?_, calculateBoundingBox_error_iff tr entities, ?_⟩
  · simp only [calculateBoundingBox]
    rw [bboxFold_filter]
  · cases hemp : entities.isEmpty with
    | true =>
      have he : entities = [] := List.isEmpty_iff.mp hemp
      subst he
      simp [loadDXFFromEntities]
    | false =>
      have hemp2 : ¬ (entities.isEmpty = true) := by
        rw [hemp]
        simp
      cases hbb : calculateBoundingBox tr entities with
      | error msg =>
        have hall := (calculateBoundingBox_error_iff tr entities).mp ⟨msg, hbb⟩
        have hload : loadDXFFromEntities tr entities = Except.error msg := by
          simp only [loadDXFFromEntities]
          rw [if_neg hemp2, hbb]
        rw [hload]
        exact iff_of_true ⟨msg, rfl⟩ (Or.inl hall)
      | ok bb =>
        have hnall : ¬ ∀ e ∈ entities, entityPoints tr e = [] := by
          intro h
          obtain ⟨msg, hmsg⟩ := (calculateBoundingBox_error_iff tr entities).mpr h
          rw [hbb] at hmsg
          exact Except.noConfusion hmsg
        have hload : loadDXFFromEntities tr entities
            = (if bb.maxX - bb.minX ≤ 0 ∨ bb.maxY - bb.minY ≤ 0
               then Except.error "Invalid object extents in DXF (width or height <= 0)"
               else Except.ok (bb, bb.maxX - bb.minX, bb.maxY - bb.minY)) := by
          simp only [loadDXFFromEntities]
          rw [if_neg hemp2, hbb]
        rw [hload]
        by_cases hwh : bb.maxX - bb.minX ≤ 0 ∨ bb.maxY - bb.minY ≤ 0
        · rw [if_pos hwh]
          exact iff_of_true ⟨_, rfl⟩ (Or.inr ⟨bb, rfl, hwh⟩)
        · rw [if_neg hwh]
          apply iff_of_false
          · rintro ⟨msg, hmsg⟩
            exact Except.noConfusion hmsg
          · rintro (h | ⟨bb2, hbb2, hcond⟩)
            · exact hnall h
            · injection hbb2 with hbb3
              exact hwh (hbb3 ▸ hcond)

/-- C7 amended-theorem witness: a single LINE entity from `(0,0)` to
`(10,10)` loads successfully (no error), matching the characterization. -/
theorem C7_bbox_skip_and_load_errors_witness :
    calculateBoundingBox testTrig
        [Entity.lineE (some (.num 0)) (some (.num 0)) (some (.num 10)) (some (.num 10))]
      = calculateBoundingBox testTrig
        ([Entity.lineE (some (.num 0)) (some (.num 0)) (some (.num 10)) (some (.num 10))].filter
          (fun e => !(entityPoints testTrig e).isEmpty)) :=
  (C7_bbox_skip_and_load_errors testTrig
    [Entity.lineE (some (.num 0)) (some (.num 0)) (some (.num 10)) (some (.num 10))]).1

/-- C7 counterexample: a CIRCLE with all fields present and finite but a
negative radius (−5).  It is a valid entity for the bounding box (not
skipped), the box is the inverted `⟨5, 5, −5, −5⟩` with width = height
= −10 — finite and nonzero — and yet the load fails.  The claim's
"fails exactly when zero valid entities remain or zero/non-finite
width or height" is therefore false at this input: the code tests
`width <= 0`, which also fires on negative extents. -/
theorem C7_counterexample :
    (∃ msg, loadDXFFromEntities testTrig [negCircle] = Except.error msg)
    ∧ ¬ (∀ e ∈ [negCircle], entityPoints testTrig e = [])
    ∧ (∃ bb, calculateBoundingBox testTrig [negCircle] = Except.ok bb
        ∧ bb.maxX - bb.minX = -10 ∧ bb.maxX - bb.minX ≠ 0
        ∧ bb.maxY - bb.minY = -10 ∧ bb.maxY - bb.minY ≠ 0) := by
  have hbb : calculateBoundingBox testTrig [negCircle]
      = Except.ok ⟨5, 5, -5, -5⟩ := by
    norm_num [calculateBoundingBox, bboxStep, circleValid, finQ, pushCorners, negCircle]
  refine ⟨⟨"Invalid object extents in DXF (width or height <= 0)", ?_⟩, ?_, ?_⟩
  · have hload : loadDXFFromEntities testTrig [negCircle]
        = (if (-5 : ℚ) - 5 ≤ 0 ∨ (-5 : ℚ) - 5 ≤ 0
           then Except.error "Invalid object extents in DXF (width or height <= 0)"
           else Except.ok (⟨5, 5, -5, -5⟩, (-5 : ℚ) - 5, (-5 : ℚ) - 5)) := by
      simp only [loadDXFFromEntities]
      rw [if_neg (by simp), hbb]
    rw [hload, if_pos (by norm_num)]
  · intro h
    have := h negCircle (List.mem_cons_self _ _)
    rw [show entityPoints testTrig negCircle = [(5, 5), (-5, -5)] by
      norm_num [entityPoints, circleValid, finQ, negCircle]] at this
    exact absurd this (by simp)
  · exact ⟨⟨5, 5, -5, -5⟩, hbb, by norm_num, by norm_num, by norm_num, by norm_num⟩

/-- Appending a singleton fixes the last element. -/
theorem getLast?_concat_eq {α : Type} (l : List α) (a : α) :
    (l ++ [a]).getLast? = some a := by
  rw [List.getLast?_append_of_ne_nil l (by simp)]
  rfl

/-- `getLast?` commutes with `map`. -/
theorem getLast?_map_eq {α β : Type} (f : α → β) (l : List α) :
    (l.map f).getLast? = l.getLast?.map f := by
  induction l with
  | nil => rfl
  | cons a t ih =>
    cases t with
    | nil => rfl
    | cons b t2 =>
      rw [List.map_cons, List.map_cons, List.getLast?_cons_cons, ← List.map_cons,
        List.getLast?_cons_cons]
      exact ih

/-- There are `BEZIER_STEPS = 20` tessellation parameters. -/
theorem bezierTs_ne_nil : bezierTs ≠ [] := by
  simp [bezierTs, BEZIER_STEPS]

/-- The final tessellation parameter is `t = 1`. -/
theorem bezierTs_getLast : bezierTs.getLast? = some 1 := by
  unfold bezierTs
  rw [getLast?_map_eq]
  rw [show (List.range BEZIER_STEPS).getLast? = some 19 from by decide]
  show some ((((19 : ℕ) : ℚ) + 1) / (BEZIER_STEPS : ℚ)) = some 1
  norm_num [BEZIER_STEPS]

/-- A tessellated curve piece is never empty. -/
theorem map_bezierTs_ne_nil {β : Type} (g : ℚ → β) : bezierTs.map g ≠ [] := by
  cases hb : bezierTs with
  | nil => exact absurd hb bezierTs_ne_nil
  | cons a t => simp

/-- The last point of a tessellated curve piece is the `t = 1` sample. -/
theorem map_bezierTs_getLast {β : Type} (g : ℚ → β) :
    (bezierTs.map g).getLast? = some (g 1) := by
  rw [getLast?_map_eq, bezierTs_getLast]
  rfl

/-- The cubic Bézier lands on its final control point at `t = 1`. -/
theorem cubicBezier_one (p0 p1 p2 p3 : ℚ) : cubicBezier p0 p1 p2 p3 1 = p3 := by
  unfold cubicBezier
  ring

/-- The quadratic Bézier lands on its endpoint at `t = 1`. -/
theorem quadraticBezier_one (p0 p1 p2 : ℚ) : quadraticBezier p0 p1 p2 1 = p2 := by
  unfold quadraticBezier
  ring

/-- Linear interpolation lands on its endpoint at `t = 1`. -/
theorem lerp_one (a b : ℚ) : a + (b - a) * 1 = b := by ring

/-- A fold whose steps each preserve a state predicate preserves it. -/
theorem foldl_pres {α : Type} (P : PathState → Prop) (step : PathState → α → PathState)
    (hstep : ∀ s a, P s → P (step s a)) :
    ∀ (l : List α) (s : PathState), P s → P (l.foldl step s) := by
  intro l
  induction l with
  | nil => exact fun s h => h
  | cons a t ih =>
    intro s h
    rw [List.foldl_cons]
    exact ih _ (hstep s a h)

/-- A fold whose steps only append points only appends points. -/
theorem foldl_points_append {α : Type} (step : PathState → α → PathState)
    (hstep : ∀ s a, ∃ tl, (step s a).points = s.points ++ tl) :
    ∀ (l : List α) (s : PathState), ∃ tl, (l.foldl step s).points = s.points ++ tl := by
  intro l
  induction l with
  | nil => exact fun s => ⟨[], by simp⟩
  | cons a t ih =>
    intro s
    obtain ⟨t1, h1⟩ := hstep s a
    obtain ⟨t2, h2⟩ := ih (step s a)
    exact ⟨t1 ++ t2, by rw [List.foldl_cons, h2, h1, List.append_assoc]⟩

/-- A fold whose steps leave the subpath start alone leaves it alone. -/
theorem foldl_start_pres {α : Type} (step : PathState → α → PathState)
    (hstep : ∀ s a, (step s a).startX = s.startX ∧ (step s a).startY = s.startY) :
    ∀ (l : List α) (s : PathState),
      (l.foldl step s).startX = s.startX ∧ (l.foldl step s).startY = s.startY := by
  intro l
  induction l with
  | nil => exact fun s => ⟨rfl, rfl⟩
  | cons a t ih =>
    intro s
    rw [List.foldl_cons]
    obtain ⟨h1, h2⟩ := ih (step s a)
    obtain ⟨h3, h4⟩ := hstep s a
    exact ⟨h1.trans h3, h2.trans h4⟩

/-- `L`/`l` steps restore the invariant. -/
theorem lineToStep_LastOk (env : PathEnv) (abs : Bool) (st : PathState) (p : Pt) :
    LastOk env (lineToStep env abs st p) :=
  ⟨by simp [lineToStep], getLast?_concat_eq _ _⟩

/-- `H`/`h` steps restore the invariant. -/
theorem horizStep_LastOk (env : PathEnv) (abs : Bool) (st : PathState) (c : ℚ) :
    LastOk env (horizStep env abs st c) :=
  ⟨by simp [horizStep], getLast?_concat_eq _ _⟩

/-- `V`/`v` steps restore the invariant. -/
theorem vertStep_LastOk (env : PathEnv) (abs : Bool) (st : PathState) (c : ℚ) :
    LastOk env (vertStep env abs st c) :=
  ⟨by simp [vertStep], getLast?_concat_eq _ _⟩

/-- `C`/`c` steps restore the invariant (the `t = 1` sample is the curve
endpoint, which becomes the new current point). -/
theorem cubicStep_LastOk (env : PathEnv) (abs : Bool) (st : PathState)
    (a : ℚ × ℚ × ℚ × ℚ × ℚ × ℚ) : LastOk env (cubicStep env abs st a) := by
  refine ⟨?_, ?_⟩
  · intro hc
    rw [show (cubicStep env abs st a).points
        = st.points ++ bezierTs.map (fun tt =>
            normPt env
              (cubicBezier st.curX (if abs then a.1 else st.curX + a.1)
                (if abs then a.2.2.1 else st.curX + a.2.2.1)
                (if abs then a.2.2.2.2.1 else st.curX + a.2.2.2.2.1) tt)
              (cubicBezier st.curY (if abs then a.2.1 else st.curY + a.2.1)
                (if abs then a.2.2.2.1 else st.curY + a.2.2.2.1)
                (if abs then a.2.2.2.2.2 else st.curY + a.2.2.2.2.2) tt)) from rfl] at hc
    rw [List.append_eq_nil] at hc
    exact map_bezierTs_ne_nil _ hc.2
  · show (st.points ++ bezierTs.map _).getLast? = _
    rw [List.getLast?_append_of_ne_nil _ (map_bezierTs_ne_nil _), map_bezierTs_getLast,
      cubicBezier_one, cubicBezier_one]
    rfl

/-- `S`/`s` steps restore the invariant. -/
theorem smoothCubicStep_LastOk (env : PathEnv) (abs : Bool) (st : PathState)
    (a : ℚ × ℚ × ℚ × ℚ) : LastOk env (smoothCubicStep env abs st a) := by
  refine ⟨?_, ?_⟩
  · intro hc
    rw [show (smoothCubicStep env abs st a).points = st.points ++ bezierTs.map _ from rfl,
      List.append_eq_nil] at hc
    exact map_bezierTs_ne_nil _ hc.2
  · show (st.points ++ bezierTs.map _).getLast? = _
    rw [List.getLast?_append_of_ne_nil _ (map_bezierTs_ne_nil _), map_bezierTs_getLast,
      cubicBezier_one, cubicBezier_one]
    rfl

/-- `Q`/`q` steps restore the invariant. -/
theorem quadStep_LastOk (env : PathEnv) (abs : Bool) (st : PathState)
    (a : ℚ × ℚ × ℚ × ℚ) : LastOk env (quadStep env abs st a) := by
  refine ⟨?_, ?_⟩
  · intro hc
    rw [show (quadStep env abs st a).points = st.points ++ bezierTs.map _ from rfl,
      List.append_eq_nil] at hc
    exact map_bezierTs_ne_nil _ hc.2
  · show (st.points ++ bezierTs.map _).getLast? = _
    rw [List.getLast?_append_of_ne_nil _ (map_bezierTs_ne_nil _), map_bezierTs_getLast,
      quadraticBezier_one, quadraticBezier_one]
    rfl

/-- `T`/`t` steps restore the invariant. -/
theorem smoothQuadStep_LastOk (env : PathEnv) (abs : Bool) (st : PathState)
    (a : Pt) : LastOk env (smoothQuadStep env abs st a) := by
  refine ⟨?_, ?_⟩
  · intro hc
    rw [show (smoothQuadStep env abs st a).points = st.points ++ bezierTs.map _ from rfl,
      List.append_eq_nil] at hc
    exact map_bezierTs_ne_nil _ hc.2
  · show (st.points ++ bezierTs.map _).getLast? = _
    rw [List.getLast?_append_of_ne_nil _ (map_bezierTs_ne_nil _), map_bezierTs_getLast,
      quadraticBezier_one, quadraticBezier_one]
    rfl

/-- `A`/`a` steps restore the invariant. -/
theorem arcToStep_LastOk (env : PathEnv) (abs : Bool) (st : PathState)
    (a : ℚ × ℚ × ℚ × ℚ × ℚ × ℚ × ℚ) : LastOk env (arcToStep env abs st a) := by
  refine ⟨?_, ?_⟩
  · intro hc
    rw [show (arcToStep env abs st a).points = st.points ++ bezierTs.map _ from rfl,
      List.append_eq_nil] at hc
    exact map_bezierTs_ne_nil _ hc.2
  · show (st.points ++ bezierTs.map _).getLast? = _
    rw [List.getLast?_append_of_ne_nil _ (map_bezierTs_ne_nil _), map_bezierTs_getLast,
      lerp_one, lerp_one]
    rfl

/-- Every command preserves the last-point invariant (for `Z` because a
point is only omitted when the current point already equals the start). -/
theorem applyCmd_LastOk (env : PathEnv) (st : PathState) (cmd : PathCmd)
    (h : LastOk env st) : LastOk env (applyCmd env st cmd) := by
  cases cmd with
  | move abs x y =>
    exact ⟨by simp [applyCmd], getLast?_concat_eq _ _⟩
  | lineTo abs pts =>
    exact foldl_pres (LastOk env) _ (fun s a _ => lineToStep_LastOk env abs s a) pts st h
  | horiz abs xs =>
    exact foldl_pres (LastOk env) _ (fun s a _ => horizStep_LastOk env abs s a) xs st h
  | vert abs ys =>
    exact foldl_pres (LastOk env) _ (fun s a _ => vertStep_LastOk env abs s a) ys st h
  | cubic abs args =>
    exact foldl_pres (LastOk env) _ (fun s a _ => cubicStep_LastOk env abs s a) args st h
  | smoothCubic abs args =>
    exact foldl_pres (LastOk env) _ (fun s a _ => smoothCubicStep_LastOk env abs s a) args st h
  | quad abs args =>
    exact foldl_pres (LastOk env) _ (fun s a _ => quadStep_LastOk env abs s a) args st h
  | smoothQuad abs args =>
    exact foldl_pres (LastOk env) _ (fun s a _ => smoothQuadStep_LastOk env abs s a) args st h
  | arcTo abs args =>
    exact foldl_pres (LastOk env) _ (fun s a _ => arcToStep_LastOk env abs s a) args st h
  | close =>
    by_cases hc : st.curX ≠ st.startX ∨ st.curY ≠ st.startY
    · have hp : (applyCmd env st PathCmd.close).points
          = st.points ++ [normPt env st.startX st.startY] := by
        show (if st.curX ≠ st.startX ∨ st.curY ≠ st.startY
              then { st with points := st.points ++ [normPt env st.startX st.startY] }
              else st).points = _
        rw [if_pos hc]
      refine ⟨?_, ?_⟩
      · rw [hp]
        simp
      · show (applyCmd env st PathCmd.close).points.getLast?
            = some (normPt env st.startX st.startY)
        rw [hp, getLast?_concat_eq]
    · push_neg at hc
      obtain ⟨h1, h2⟩ := hc
      have hp : (applyCmd env st PathCmd.close).points = st.points := by
        show (if st.curX ≠ st.startX ∨ st.curY ≠ st.startY
              then { st with points := st.points ++ [normPt env st.startX st.startY] }
              else st).points = _
        rw [if_neg (by push_neg; exact ⟨h1, h2⟩)]
      refine ⟨?_, ?_⟩
      · rw [hp]
        exact h.1
      · show (applyCmd env st PathCmd.close).points.getLast?
            = some (normPt env st.startX st.startY)
        rw [hp, h.2, h1, h2]

/-- Every command only appends to the accumulated point list. -/
theorem applyCmd_points_append (env : PathEnv) (st : PathState) (cmd : PathCmd) :
    ∃ tl, (applyCmd env st cmd).points = st.points ++ tl := by
  cases cmd with
  | move abs x y => exact ⟨_, rfl⟩
  | lineTo abs pts =>
    exact foldl_points_append _ (fun s a => ⟨_, rfl⟩) pts st
  | horiz abs xs =>
    exact foldl_points_append _ (fun s a => ⟨_, rfl⟩) xs st
  | vert abs ys =>
    exact foldl_points_append _ (fun s a => ⟨_, rfl⟩) ys st
  | cubic abs args =>
    exact foldl_points_append _ (fun s a => ⟨_, rfl⟩) args st
  | smoothCubic abs args =>
    exact foldl_points_append _ (fun s a => ⟨_, rfl⟩) args st
  | quad abs args =>
    exact foldl_points_append _ (fun s a => ⟨_, rfl⟩) args st
  | smoothQuad abs args =>
    exact foldl_points_append _ (fun s a => ⟨_, rfl⟩) args st
  | arcTo abs args =>
    exact foldl_points_append _ (fun s a => ⟨_, rfl⟩) args st
  | close =>
    by_cases hc : st.curX ≠ st.startX ∨ st.curY ≠ st.startY
    · refine ⟨[normPt env st.startX st.startY], ?_⟩
      show (if st.curX ≠ st.startX ∨ st.curY ≠ st.startY
            then { st with points := st.points ++ [normPt env st.startX st.startY] }
            else st).points = _
      rw [if_pos hc]
    · refine ⟨[], ?_⟩
      show (if st.curX ≠ st.startX ∨ st.curY ≠ st.startY
            then { st with points := st.points ++ [normPt env st.startX st.startY] }
            else st).points = _
      rw [if_neg hc]
      simp

/-- Drawing commands (everything except `M`/`m`/`Z`/`z`) leave the
subpath start point alone. -/
theorem applyCmd_start (env : PathEnv) (st : PathState) (cmd : PathCmd)
    (h : isMoveOrClose cmd = false) :
    (applyCmd env st cmd).startX = st.startX ∧ (applyCmd env st cmd).startY = st.startY := by
  cases cmd with
  | move abs x y => exact absurd h (by simp [isMoveOrClose])
  | close => exact absurd h (by simp [isMoveOrClose])
  | lineTo abs pts =>
    exact foldl_start_pres (lineToStep env abs) (fun s a => ⟨rfl, rfl⟩) pts st
  | horiz abs xs =>
    exact foldl_start_pres (horizStep env abs) (fun s a => ⟨rfl, rfl⟩) xs st
  | vert abs ys =>
    exact foldl_start_pres (vertStep env abs) (fun s a => ⟨rfl, rfl⟩) ys st
  | cubic abs args =>
    exact foldl_start_pres (cubicStep env abs) (fun s a => ⟨rfl, rfl⟩) args st
  | smoothCubic abs args =>
    exact foldl_start_pres (smoothCubicStep env abs) (fun s a => ⟨rfl, rfl⟩) args st
  | quad abs args =>
    exact foldl_start_pres (quadStep env abs) (fun s a => ⟨rfl, rfl⟩) args st
  | smoothQuad abs args =>
    exact foldl_start_pres (smoothQuadStep env abs) (fun s a => ⟨rfl, rfl⟩) args st
  | arcTo abs args =>
    exact foldl_start_pres (arcToStep env abs) (fun s a => ⟨rfl, rfl⟩) args st

/-- A fold of drawing commands leaves the subpath start alone. -/
theorem foldl_applyCmd_start (env : PathEnv) (mids : List PathCmd)
    (hm : ∀ c ∈ mids, isMoveOrClose c = false) :
    ∀ s : PathState, (mids.foldl (applyCmd env) s).startX = s.startX
      ∧ (mids.foldl (applyCmd env) s).startY = s.startY := by
  induction mids with
  | nil => exact fun s => ⟨rfl, rfl⟩
  | cons c t ih =>
    intro s
    rw [List.foldl_cons]
    obtain ⟨h1, h2⟩ := ih (fun x hx => hm x (List.mem_cons_of_mem c hx)) (applyCmd env s c)
    obtain ⟨h3, h4⟩ := applyCmd_start env s c (hm c (List.mem_cons_self c t))
    exact ⟨h1.trans h3, h2.trans h4⟩

/-- C9 (amended): every contour the SVG path evaluator produces from a
subpath `M(x0,y0), <drawing commands>, Z` is non-empty, starts at the
normalized `(x0,y0)`, and STORES the closing point: its last stored
point EQUALS its first (`Z` re-appends the subpath start already stored
by the `M`, or the path already ends there) — the closing edge is
duplicated in storage, not implicit. -/
theorem C9_close_duplicates_start (env : PathEnv) (x0 y0 : ℚ) (mids : List PathCmd)
    (hm : ∀ c ∈ mids, isMoveOrClose c = false) :
    runPath env (PathCmd.move true x0 y0 :: (mids ++ [PathCmd.close])) ≠ []
    ∧ (runPath env (PathCmd.move true x0 y0 :: (mids ++ [PathCmd.close]))).head?
        = some (normPt env x0 y0)
    ∧ (runPath env (PathCmd.move true x0 y0 :: (mids ++ [PathCmd.close]))).getLast?
        = (runPath env (PathCmd.move true x0 y0 :: (mids ++ [PathCmd.close]))).head? := by
  have hrun : runPath env (PathCmd.move true x0 y0 :: (mids ++ [PathCmd.close]))
      = (applyCmd env
          (mids.foldl (applyCmd env) (applyCmd env initPathState (PathCmd.move true x0 y0)))
          PathCmd.close).points := by
    unfold runPath
    rw [List.foldl_cons, List.foldl_append, List.foldl_cons, List.foldl_nil]
  have hst1_eq : applyCmd env initPathState (PathCmd.move true x0 y0)
      = ⟨x0, y0, x0, y0, 0, 0, CmdKind.move, [normPt env x0 y0]⟩ := rfl
  set st1 := applyCmd env initPathState (PathCmd.move true x0 y0) with hst1def
  set stM := mids.foldl (applyCmd env) st1 with hstMdef
  have h1last : LastOk env st1 := by
    rw [hst1_eq]
    exact ⟨by simp, rfl⟩
  have hMlast : LastOk env stM :=
    foldl_pres (LastOk env) (applyCmd env)
      (fun s c hs => applyCmd_LastOk env s c hs) mids st1 h1last
  have hstart : stM.startX = x0 ∧ stM.startY = y0 := by
    obtain ⟨h1, h2⟩ := foldl_applyCmd_start env mids hm st1
    rw [hst1_eq] at h1 h2
    exact ⟨h1, h2⟩
  have hhead : stM.points.head? = some (normPt env x0 y0) := by
    obtain ⟨tl, htl⟩ :=
      foldl_points_append (applyCmd env)
        (fun s c => applyCmd_points_append env s c) mids st1
    rw [htl, show st1.points = [normPt env x0 y0] from by rw [hst1_eq],
      List.head?_append_of_ne_nil _ (by simp)]
    rfl
  rw [hrun]
  by_cases hc : stM.curX ≠ stM.startX ∨ stM.curY ≠ stM.startY
  · have hF : (applyCmd env stM PathCmd.close).points
        = stM.points ++ [normPt env stM.startX stM.startY] := by
      show (if stM.curX ≠ stM.startX ∨ stM.curY ≠ stM.startY
            then { stM with points := stM.points ++ [normPt env stM.startX stM.startY] }
            else stM).points = _
      rw [if_pos hc]
    have hh : (applyCmd env stM PathCmd.close).points.head? = some (normPt env x0 y0) := by
      rw [hF, List.head?_append_of_ne_nil _ hMlast.1, hhead]
    have hl : (applyCmd env stM PathCmd.close).points.getLast? = some (normPt env x0 y0) := by
      rw [hF, getLast?_concat_eq, hstart.1, hstart.2]
    refine ⟨?_, hh, by rw [hl, hh]⟩
    rw [hF]
    simp
  · push_neg at hc
    obtain ⟨h1, h2⟩ := hc
    have hF : (applyCmd env stM PathCmd.close).points = stM.points := by
      show (if stM.curX ≠ stM.startX ∨ stM.curY ≠ stM.startY
            then { stM with points := stM.points ++ [normPt env stM.startX stM.startY] }
            else stM).points = _
      rw [if_neg (by push_neg; exact ⟨h1, h2⟩)]
    have hh : (applyCmd env stM PathCmd.close).points.head? = some (normPt env x0 y0) := by
      rw [hF, hhead]
    have hl : (applyCmd env stM PathCmd.close).points.getLast? = some (normPt env x0 y0) := by
      rw [hF, hMlast.2, h1, h2, hstart.1, hstart.2]
    refine ⟨?_, hh, by rw [hl, hh]⟩
    rw [hF]
    exact hMlast.1

/-- C9 amended-theorem witness: the closed triangle path
`M 0 0, L (10,0) (10,10), Z` in a 10×10 document. -/
theorem C9_close_duplicates_start_witness :
    (∀ c ∈ [PathCmd.lineTo true [(10, 0), (10, 10)]], isMoveOrClose c = false) ∧
    (runPath ⟨0, 0, 10, 10⟩
        (PathCmd.move true 0 0 :: ([PathCmd.lineTo true [(10, 0), (10, 10)]] ++ [PathCmd.close]))).getLast?
      = (runPath ⟨0, 0, 10, 10⟩
        (PathCmd.move true 0 0 :: ([PathCmd.lineTo true [(10, 0), (10, 10)]] ++ [PathCmd.close]))).head? :=
  ⟨by simp [isMoveOrClose],
   (C9_close_duplicates_start ⟨0, 0, 10, 10⟩ 0 0 [PathCmd.lineTo true [(10, 0), (10, 10)]]
     (by simp [isMoveOrClose])).2.2⟩

/-- C9 counterexample: the triangle path `M 0 0, L (10,0) (10,10), Z` in
a 10×10 document yields the stored contour
`[(0,0), (1,0), (1,1), (0,0)]` — the closing point IS stored: the first
and last stored points are equal, not distinct. -/
theorem C9_counterexample :
    runPath ⟨0, 0, 10, 10⟩
        [PathCmd.move true 0 0, PathCmd.lineTo true [(10, 0), (10, 10)], PathCmd.close]
      = [(0, 0), (1, 0), (1, 1), (0, 0)]
    ∧ extractContourFromPathCmds ⟨0, 0, 10, 10⟩
        [PathCmd.move true 0 0, PathCmd.lineTo true [(10, 0), (10, 10)], PathCmd.close]
      = some [(0, 0), (1, 0), (1, 1), (0, 0)]
    ∧ ([((0 : ℚ), (0 : ℚ)), (1, 0), (1, 1), (0, 0)] : List Pt).head?
      = ([((0 : ℚ), (0 : ℚ)), (1, 0), (1, 1), (0, 0)] : List Pt).getLast? := by
  have hrun : runPath ⟨0, 0, 10, 10⟩
      [PathCmd.move true 0 0, PathCmd.lineTo true [(10, 0), (10, 10)], PathCmd.close]
      = [(0, 0), (1, 0), (1, 1), (0, 0)] := by
    norm_num [runPath, applyCmd, initPathState, lineToStep, normPt]
  refine ⟨hrun, ?_, by simp⟩
  unfold extractContourFromPathCmds
  rw [hrun]
  simp

end BeadingEditor
